import Mathlib

/-!
# vsjpgreader: a shallow embedding of `jpgreader.c`

The file models the JPEG image reader for VapourSynth.  Every definition below
follows one function (or one loop) of `src/jpgreader.c`; the answers of the
allocator, the file system, the JPEG decoder and the frame server are inputs of
the model, so that every run the C code can take corresponds to one choice of
those answers.

Conventions:
* a C `int` is a mathematical integer brought back into range by `wrap32`;
  `uint32_t` values are reduced by `toUInt32`; `size_t` conversions by
  `toSizeT`;
* a C string is a list of characters, one per `char`;
* a pointer that may be `NULL` is an `Option`;
* memory reached through a byte pointer is a function from offsets to bytes;
* a function whose run reads an array outside its bounds or a block that was
  freed returns `none`.
-/

namespace JpgReader

/-! ## Machine integers, strings and memory -/

/-- Value of a 32-bit two's complement `int` that holds the integer `x`. -/
def wrap32 (x : Int) : Int := (x + 2 ^ 31) % 2 ^ 32 - 2 ^ 31

/-- Conversion of a size to `uint32_t`. -/
def toUInt32 (x : Nat) : Nat := x % 2 ^ 32

/-- Conversion of an `int` to the 64-bit `size_t`. -/
def toSizeT (x : Int) : Nat := (x % 2 ^ 64).toNat

/-- Left shift of an `int` by `k` bits, `x << k`. -/
def shl32 (x : Int) (k : Nat) : Int := wrap32 (x * 2 ^ k)

/-- C string: the characters before the terminating NUL. -/
abbrev CStr := List Char

/-- Bytes reached through a `uint8_t *`, indexed by the offset from the pointer. -/
abbrev Mem := Int → Nat

/-- Effect of `memcpy(dst + dstp, src + srcp, n)` on the destination memory. -/
def memcpy (dst : Mem) (dstp : Int) (src : Mem) (srcp : Int) (n : Nat) : Mem :=
  fun a => if dstp ≤ a ∧ a < dstp + (n : Int) then src (srcp + (a - dstp)) else dst a

/-- Output of `snprintf(buf, size, ...)` for an already formatted text: at most
`size - 1` characters are stored. -/
def snprintf (size : Nat) (text : CStr) : CStr := text.take (size - 1)

/-! ## Constants of `turbojpeg.h` and `VapourSynth.h` -/

/-- Enumerator `TJSAMP_444` of `enum TJSAMP`. -/
def TJSAMP_444 : Int := 0
/-- Enumerator `TJSAMP_422` of `enum TJSAMP`. -/
def TJSAMP_422 : Int := 1
/-- Enumerator `TJSAMP_420` of `enum TJSAMP`. -/
def TJSAMP_420 : Int := 2
/-- Enumerator `TJSAMP_GRAY` of `enum TJSAMP`. -/
def TJSAMP_GRAY : Int := 3
/-- Enumerator `TJSAMP_440` of `enum TJSAMP`. -/
def TJSAMP_440 : Int := 4

/-- The preset formats of `VSPresetFormat` that the reader can name. -/
inductive VSPresetFormat where
  | pfNone
  | pfGray8
  | pfYUV420P8
  | pfYUV422P8
  | pfYUV444P8
  | pfYUV440P8
  deriving DecidableEq, Repr

/-- Activation reason `arInitial` of the frame server. -/
def arInitial : Int := 0

/-- Size of the first read buffer, `INITIAL_SRC_BUFF_SIZE`. -/
def INITIAL_SRC_BUFF_SIZE : Nat := 2 * 1024 * 1024

/-! ## Data model -/

/-- The fields of `VSFormat` that the reader looks at. -/
structure VSFormat where
  id : VSPresetFormat
  numPlanes : Int
  deriving DecidableEq, Repr

/-- Clip description `VSVideoInfo`; `format` is a pointer. -/
structure VSVideoInfo where
  format : Option VSFormat
  fpsNum : Int
  fpsDen : Int
  width : Int
  height : Int
  numFrames : Int
  deriving DecidableEq, Repr

/-- Handle `jpg_hnd_t`.  `src_buff` and `decode_buff` hold the byte count that
was passed to `malloc` for the block they point to. -/
structure jpg_hnd_t where
  src_files : Option (List CStr)
  src_size : Option (List Nat)
  src_buff : Option Nat
  buff_size : Nat
  decode_buff : Option Nat
  tjh : Bool
  vi : VSVideoInfo
  deriving DecidableEq, Repr

/-- Expected geometry `whs_t`. -/
structure whs_t where
  width : Int
  height : Int
  subsample : Int
  deriving DecidableEq, Repr

/-- The resources one clip owns. -/
inductive Res where
  | handle
  | src_files
  | src_size
  | src_buff
  | decode_buff
  | tjh
  deriving DecidableEq, Repr

/-- Allocator state: the resources currently allocated and the number of
successful allocations of the read buffer so far. -/
structure Heap where
  live : List Res
  src_buff_allocs : Nat
  deriving DecidableEq, Repr

/-- Successful `malloc`/`calloc`/`tjInitDecompress` of resource `r`. -/
def Heap.alloc (hp : Heap) (r : Res) : Heap :=
  { live := r :: hp.live,
    src_buff_allocs := if r = Res.src_buff then hp.src_buff_allocs + 1 else hp.src_buff_allocs }

/-- Call of `free` (or `tjDestroy`) on resource `r`. -/
def Heap.free (hp : Heap) (r : Res) : Heap :=
  { hp with live := hp.live.erase r }

/-- The handle right after `calloc(sizeof(jpg_hnd_t), 1)`: all bytes zero. -/
def jpg_hnd_t.zero : jpg_hnd_t :=
  { src_files := none, src_size := none, src_buff := none, buff_size := 0,
    decode_buff := none, tjh := false,
    vi := { format := none, fpsNum := 0, fpsDen := 0, width := 0, height := 0, numFrames := 0 } }

/-- The value `whs_t whs = { 0 }`. -/
def whs_t.zero : whs_t := { width := 0, height := 0, subsample := 0 }

/-! ## `close_handler` -/

/-- Function `close_handler`: releases the decode buffer, the read buffer, the
file list and the decoder context when their pointers are set, then the handle. -/
def close_handler (jh : Option jpg_hnd_t) (hp : Heap) : Heap :=
  match jh with
  | none => hp
  | some jh =>
    let hp1 := if jh.decode_buff.isSome then hp.free Res.decode_buff else hp
    let hp2 := if jh.src_buff.isSome then hp1.free Res.src_buff else hp1
    let hp3 := if jh.src_files.isSome then hp2.free Res.src_files else hp2
    let hp4 := if jh.tjh then hp3.free Res.tjh else hp3
    hp4.free Res.handle

/-! ## `tjsamp_to_vspresetformat` -/

/-- The local `table` of `tjsamp_to_vspresetformat`; its last row repeats the argument. -/
def table (tjsamp : Int) : List (Int × VSPresetFormat) :=
  [ (TJSAMP_444, VSPresetFormat.pfYUV444P8),
    (TJSAMP_422, VSPresetFormat.pfYUV422P8),
    (TJSAMP_420, VSPresetFormat.pfYUV420P8),
    (TJSAMP_GRAY, VSPresetFormat.pfGray8),
    (TJSAMP_440, VSPresetFormat.pfYUV440P8),
    (tjsamp, VSPresetFormat.pfNone) ]

/-- The loop `while (table[i].tjsample_type != tjsamp) i++;` started at `i`
with `steps` iterations left; `none` when the loop leaves the table or is
still running after `steps` tests. -/
def table_scan (tjsamp : Int) : Nat → Nat → Option Nat
  | 0, _ => none
  | steps + 1, i =>
    match (table tjsamp).get? i with
    | none => none
    | some row => if row.1 ≠ tjsamp then table_scan tjsamp steps (i + 1) else some i

/-- Function `tjsamp_to_vspresetformat`.  Every iteration moves `i` one row
forward, so the loop is given as many tests as the table has rows. -/
def tjsamp_to_vspresetformat (tjsamp : Int) : Option VSPresetFormat :=
  match table_scan tjsamp (table tjsamp).length 0 with
  | none => none
  | some i => ((table tjsamp).get? i).map Prod.snd

/-! ## `check_srcs` -/

/-- What the file system, the allocator and the decoder answer while one source
file is probed. -/
structure SrcFile where
  /-- Whether `stat` returns 0. -/
  stat_ok : Bool
  /-- Field `st_size` filled in by `stat`. -/
  st_size : Nat
  /-- Whether the `malloc` of a larger read buffer returns a block. -/
  malloc_ok : Bool
  /-- Whether `fopen` returns a stream. -/
  fopen_ok : Bool
  /-- Number of bytes the stream can deliver to `fread`. -/
  avail : Nat
  /-- Result of `tjDecompressHeader2`: the error text, or width, height and subsampling. -/
  header : Except CStr (Int × Int × Int)

/-- The statement `width = ((width + 3) >> 2) << 2;` of `check_srcs`. -/
def align_width (width : Int) : Int := shl32 (wrap32 (width + 3) >>> (2 : Nat)) 2

/-- Lines 126-134 of `check_srcs`: the size is recorded and the read buffer is
replaced by a block of `buff_size` bytes when the file is larger than
`buff_size`. -/
def grow_src_buff (f : SrcFile) (jh : jpg_hnd_t) (n : Nat) (hp : Heap) : jpg_hnd_t × Heap :=
  let jh1 := { jh with src_size := jh.src_size.map fun a => a.set n f.st_size }
  if jh1.buff_size < f.st_size then
    let jh2 := { jh1 with buff_size := toUInt32 f.st_size }
    let hp2 := hp.free Res.src_buff
    if f.malloc_ok then
      ({ jh2 with src_buff := some jh2.buff_size }, hp2.alloc Res.src_buff)
    else
      ({ jh2 with src_buff := none }, hp2)
  else (jh1, hp)

/-- Lines 122-145 of `check_srcs`: `stat`, the read buffer, `fopen` and `fread`. -/
def load_src (f : SrcFile) (jh : jpg_hnd_t) (n : Nat) (hp : Heap) :
    Option CStr × jpg_hnd_t × Heap :=
  if f.stat_ok = false then
    (some "source file does not exist".toList, jh, hp)
  else
    let r := grow_src_buff f jh n hp
    if jh.buff_size < f.st_size ∧ r.1.src_buff = none then
      (some "failed to allocate read buffer".toList, r.1, r.2)
    else if f.fopen_ok = false then
      (some "failed to open file".toList, r.1, r.2)
    else
      let read := min f.avail f.st_size
      if read < f.st_size then
        (some "failed to read file".toList, r.1, r.2)
      else (none, r.1, r.2)

/-- Lines 155-170 of `check_srcs`: the comparison of file `n` with `whs`. -/
def match_whs (n : Nat) (whs : whs_t) (width height subsample : Int) : Option CStr × whs_t :=
  if (whs.width ≠ width ∨ whs.height ≠ height) ∧ n > 0 then
    (some "found a file which has diffrent resolution from first file".toList, whs)
  else
    let whs1 :=
      if whs.width ≠ width ∨ whs.height ≠ height then
        { whs with width := width, height := height }
      else whs
    if whs1.subsample ≠ subsample ∧ n > 0 then
      (some "found a file witch has different sample type from first file".toList, whs1)
    else if whs1.subsample ≠ subsample then
      (none, { whs1 with subsample := subsample })
    else (none, whs1)

/-- Function `check_srcs` for file number `n`; the first component is the
returned error text (`none` for `NULL`). -/
def check_srcs (f : SrcFile) (jh : jpg_hnd_t) (n : Nat) (whs : whs_t) (hp : Heap) :
    Option CStr × jpg_hnd_t × whs_t × Heap :=
  match load_src f jh n hp with
  | (some e, jh1, hp1) => (some e, jh1, whs, hp1)
  | (none, jh1, hp1) =>
    match f.header with
    | Except.error e => (some e, jh1, whs, hp1)
    | Except.ok (width0, height, subsample) =>
      let width := align_width width0
      match match_whs n whs width height subsample with
      | (r, whs1) => (r, jh1, whs1, hp1)

/-! ## `set_args_int64` -/

/-- Function `set_args_int64`: the argument when the host has it, the default otherwise. -/
def set_args_int64 (default_value : Int) (arg : Option Int) : Int :=
  match arg with
  | some v => v
  | none => default_value

/-! ## `create_source` -/

/-- The output map of the host after `create_source`. -/
structure VSMapOut where
  /-- Text passed to `setError`, if any. -/
  error : Option CStr
  /-- Instance data of the node stored under key `clip`, if any. -/
  clip : Option jpg_hnd_t
  deriving DecidableEq, Repr

/-- What one call of `create_source` leaves behind. -/
structure Run where
  out : VSMapOut
  heap : Heap
  deriving DecidableEq, Repr

/-- Answers of the allocator, the host and the decoder during one call of `create_source`. -/
structure Host where
  /-- Whether `calloc` returns the handle. -/
  calloc_handle : Bool
  /-- Result of `propNumElements(in, "files")`. -/
  propNumElements : Int
  /-- Whether `calloc` returns the file list. -/
  calloc_src_files : Bool
  /-- Result of `propGetData(in, "files", i, &err)`; `none` when `err` is set. -/
  propGetData : Nat → Option CStr
  /-- Whether `malloc` returns the array of sizes. -/
  malloc_src_size : Bool
  /-- Whether `malloc(INITIAL_SRC_BUFF_SIZE)` returns a block. -/
  malloc_src_buff : Bool
  /-- Whether `tjInitDecompress` returns a context. -/
  tjInitDecompress : Bool
  /-- Text returned by `tjGetErrorStr` after a failed `tjInitDecompress`. -/
  tjGetErrorStr : CStr
  /-- The answers for the probe of file `i`. -/
  file : Nat → SrcFile
  /-- Host function `getFormatPreset`. -/
  getFormatPreset : VSPresetFormat → VSFormat
  /-- Argument `fpsnum`, when given. -/
  fpsnum : Option Int
  /-- Argument `fpsden`, when given. -/
  fpsden : Option Int
  /-- Decoder function `tjBufSizeYUV`. -/
  tjBufSizeYUV : Int → Int → Int → Nat
  /-- Whether `malloc` returns the decode buffer. -/
  malloc_decode_buff : Bool

/-- Macro `RET_IF_ERR` once its condition holds.  The handle is closed first;
only then does `snprintf(msg, 240, ...)` evaluate its arguments: `args` gets
the allocator state left by `close_handler` and answers `none` when an
argument is read from a block that is no longer allocated.  The text is cut
by `snprintf`, stored behind `"jpgs: "` and passed to `setError`.  The result
is `none` when the arguments cannot be read. -/
def RET_IF_ERR_args (jh : Option jpg_hnd_t) (hp : Heap) (args : Heap → Option CStr) :
    Option Run :=
  let hp1 := close_handler jh hp
  match args hp1 with
  | none => none
  | some text =>
    some { out := { error := some ("jpgs: ".toList ++ snprintf 240 text), clip := none },
           heap := hp1 }

/-- Macro `RET_IF_ERR` for arguments that are not read from the clip's memory
(string literals and the decoder's error text). -/
def RET_IF_ERR (jh : Option jpg_hnd_t) (hp : Heap) (text : CStr) : Run :=
  { out := { error := some ("jpgs: ".toList ++ snprintf 240 text), clip := none },
    heap := close_handler jh hp }

/-- The first loop of `create_source`: `count` more entries are fetched from the
host starting at `i`; `none` when an entry is missing or empty. -/
def fill_src_files (propGetData : Nat → Option CStr) :
    Nat → Nat → List CStr → Option (List CStr)
  | 0, _, a => some a
  | count + 1, i, a =>
    match propGetData i with
    | none => none
    | some s =>
      if s.length = 0 then none
      else fill_src_files propGetData count (i + 1) (a.set i s)

/-- The second loop of `create_source`: `count` more files are probed starting
at `i`; on failure the first component holds the text of `check_srcs` and the
index of the file. -/
def probe_all (file : Nat → SrcFile) :
    Nat → Nat → jpg_hnd_t → whs_t → Heap → Option (CStr × Nat) × jpg_hnd_t × whs_t × Heap
  | 0, _, jh, whs, hp => (none, jh, whs, hp)
  | count + 1, i, jh, whs, hp =>
    match check_srcs (file i) jh i whs hp with
    | (some cs, jh1, whs1, hp1) => (some (cs, i), jh1, whs1, hp1)
    | (none, jh1, whs1, hp1) => probe_all file count (i + 1) jh1 whs1 hp1

/-- Lines 273-299 of `create_source`, started with nothing allocated: the
handle, the file list, the array of sizes, the first read buffer and the
decoder context are acquired.  The result is the error run of the first
`RET_IF_ERR` that fires, or the handle and the allocator state. -/
def acquire (h : Host) : Except Run (jpg_hnd_t × Heap) :=
  let hp0 : Heap := { live := [], src_buff_allocs := 0 }
  if h.calloc_handle = false then
    Except.error (RET_IF_ERR none hp0 "failed to create handler".toList)
  else
    let hp1 := hp0.alloc Res.handle
    let jh1 := jpg_hnd_t.zero
    let num_srcs := h.propNumElements
    if num_srcs < 1 then
      Except.error (RET_IF_ERR (some jh1) hp1 "no source file".toList)
    else if h.calloc_src_files = false then
      Except.error (RET_IF_ERR (some jh1) hp1 "failed to allocate array of src files".toList)
    else
      let hp2 := hp1.alloc Res.src_files
      let jh2 := { jh1 with src_files := some (List.replicate num_srcs.toNat []) }
      match fill_src_files h.propGetData num_srcs.toNat 0 (List.replicate num_srcs.toNat []) with
      | none => Except.error (RET_IF_ERR (some jh2) hp2 "zero length file name was found".toList)
      | some files =>
        let jh3 := { jh2 with src_files := some files }
        if h.malloc_src_size = false then
          Except.error
            (RET_IF_ERR (some jh3) hp2 "failed to allocate array of src file size".toList)
        else
          let hp3 := hp2.alloc Res.src_size
          let jh4 := { jh3 with src_size := some (List.replicate num_srcs.toNat 0) }
          if h.malloc_src_buff = false then
            Except.error (RET_IF_ERR (some jh4) hp3 "failed to allocate read buffer".toList)
          else
            let hp4 := hp3.alloc Res.src_buff
            let jh5 := { jh4 with src_buff := some INITIAL_SRC_BUFF_SIZE,
                                  buff_size := INITIAL_SRC_BUFF_SIZE }
            if h.tjInitDecompress = false then
              Except.error (RET_IF_ERR (some jh5) hp4 (h.tjGetErrorStr ++ "\n".toList))
            else
              Except.ok ({ jh5 with tjh := true }, hp4.alloc Res.tjh)

/-- Lines 306-322 of `create_source`: the video info is filled in, the decode
buffer is allocated and the node is stored under `clip`.  The result is `none`
only if `tjsamp_to_vspresetformat` leaves its table. -/
def finish (h : Host) (jh : jpg_hnd_t) (whs : whs_t) (hp : Heap) : Option Run :=
  match tjsamp_to_vspresetformat whs.subsample with
  | none => none
  | some preset =>
    let format := h.getFormatPreset preset
    let jh1 := { jh with vi :=
      { format := some format,
        fpsNum := set_args_int64 24 h.fpsnum,
        fpsDen := set_args_int64 1 h.fpsden,
        width := whs.width,
        height := whs.height,
        numFrames := h.propNumElements } }
    if format.id = VSPresetFormat.pfNone then
      some (RET_IF_ERR (some jh1) hp "unsupported format".toList)
    else
      let size := h.tjBufSizeYUV whs.width whs.height whs.subsample
      if h.malloc_decode_buff = false then
        some (RET_IF_ERR (some jh1) hp "failed to allocate decode buffer".toList)
      else
        some { out := { error := none, clip := some { jh1 with decode_buff := some size } },
               heap := hp.alloc Res.decode_buff }

/-- The arguments `cs, jh->src_files[i]` of the `RET_IF_ERR` at line 303, read
in allocator state `hp`: the path is fetched through the handle and the file
list, so both blocks must still be allocated. -/
def probe_error_args (jh : jpg_hnd_t) (cs : CStr) (i : Nat) (hp : Heap) : Option CStr :=
  if Res.handle ∈ hp.live ∧ Res.src_files ∈ hp.live then
    some (cs ++ " : ".toList ++ (jh.src_files.getD []).getD i [])
  else none

/-- Function `create_source`.  The result is `none` when the run reads memory
it has freed (or `tjsamp_to_vspresetformat` leaves its table). -/
def create_source (h : Host) : Option Run :=
  match acquire h with
  | Except.error run => some run
  | Except.ok (jh, hp) =>
    match probe_all h.file h.propNumElements.toNat 0 jh whs_t.zero hp with
    | (some (cs, i), jh1, _, hp1) =>
      RET_IF_ERR_args (some jh1) hp1 (probe_error_args jh1 cs i)
    | (none, jh1, whs, hp1) => finish h jh1 whs hp1

/-! ## `jpg_bit_blt` and `jpg_get_frame` -/

/-- Property map of a frame: keys with their integer values. -/
abbrev VSMap := List (String × Int)

/-- Host function `propSetInt(map, key, value, 0)`: mode 0 replaces the key. -/
def propSetInt (map : VSMap) (key : String) (value : Int) : VSMap :=
  (key, value) :: map.filter fun kv => kv.1 ≠ key

/-- Host function `propGetInt(map, key, 0, ...)`. -/
def propGetInt (map : VSMap) (key : String) : Option Int :=
  (map.find? fun kv => kv.1 = key).map Prod.snd

/-- A frame of the host: per-plane row width, height and stride, the memory
behind each write pointer, and the property map. -/
structure VSFrameRef where
  getFrameWidth : Nat → Int
  getFrameHeight : Nat → Int
  getStride : Nat → Int
  plane : Nat → Mem
  props : VSMap

/-- The `for` loop of `jpg_bit_blt` with `rows` iterations left. -/
def blt_rows (row_size dst_stride : Int) (src : Mem) : Nat → Mem → Int → Int → Mem
  | 0, dst, _, _ => dst
  | rows + 1, dst, dstp, srcp =>
    blt_rows row_size dst_stride src rows
      (memcpy dst dstp src srcp (toSizeT row_size)) (dstp + dst_stride) (srcp + row_size)

/-- Function `jpg_bit_blt`: the new contents of plane `plane` after copying
from the decode buffer `src` at offset `srcp`. -/
def jpg_bit_blt (dst : VSFrameRef) (plane : Nat) (src : Mem) (srcp : Int)
    (row_size height : Int) : Mem :=
  let dst_stride := dst.getStride plane
  if row_size = dst_stride then
    memcpy (dst.plane plane) 0 src srcp (toSizeT (wrap32 (row_size * height)))
  else
    blt_rows row_size dst_stride src height.toNat (dst.plane plane) 0 srcp

/-- The plane loop of `jpg_get_frame` with `count` planes left, the next one
being `i`, reading the decode buffer from offset `srcp`. -/
def copy_planes (src : Mem) : Nat → Nat → VSFrameRef → Int → VSFrameRef
  | 0, _, dst, _ => dst
  | count + 1, i, dst, srcp =>
    let row_size := dst.getFrameWidth i
    let height := dst.getFrameHeight i
    let mem := jpg_bit_blt dst i src srcp row_size height
    let dst1 := { dst with plane := fun p => if p = i then mem else dst.plane p }
    copy_planes src count (i + 1) dst1 (srcp + wrap32 (row_size * height))

/-- The lines `frame_number = n; if (n >= numFrames) frame_number = numFrames - 1;`. -/
def frame_number (numFrames n : Int) : Int :=
  if n ≥ numFrames then wrap32 (numFrames - 1) else n

/-- Element `a[i]` of a C array with an `int` index; `none` outside the array. -/
def index {α : Type} (a : List α) (i : Int) : Option α :=
  if i < 0 then none else a.get? i.toNat

/-- Answers of the file system, the decoder and the host during one call of
`jpg_get_frame`. -/
structure FrameHost where
  /-- Contents of the file `fopen` opens for a path; `none` when it fails. -/
  fopen : CStr → Option (List Nat)
  /-- Decoder `tjDecompressToYUV` on the bytes read: the planar image written
  to the decode buffer, or `none` for a nonzero return. -/
  tjDecompressToYUV : List Nat → Option Mem
  /-- Host function `newVideoFrame(format, width, height, NULL, core)`. -/
  newVideoFrame : VSFormat → Int → Int → VSFrameRef

/-- Function `jpg_get_frame`.  The outer `none` stands for a read outside the
arrays of the handle or through a null pointer; the inner `none` is `NULL`. -/
def jpg_get_frame (env : FrameHost) (n : Int) (activation_reason : Int) (jh : jpg_hnd_t) :
    Option (Option VSFrameRef) :=
  if activation_reason ≠ arInitial then some none
  else
    let fn := frame_number jh.vi.numFrames n
    match jh.src_files.bind fun a => index a fn with
    | none => none
    | some path =>
      match env.fopen path with
      | none => some none
      | some content =>
        match jh.src_size.bind fun a => index a fn with
        | none => none
        | some size =>
          let read := min content.length size
          if read < size then some none
          else
            match env.tjDecompressToYUV (content.take read) with
            | none => some none
            | some decoded =>
              match jh.vi.format with
              | none => none
              | some format =>
                let dst := env.newVideoFrame format jh.vi.width jh.vi.height
                let props1 := propSetInt dst.props "_DurationNum" jh.vi.fpsDen
                let props2 := propSetInt props1 "_DurationDen" jh.vi.fpsNum
                let dst1 := { dst with props := props2 }
                some (some (copy_planes decoded format.numPlanes.toNat 0 dst1 0))

/-! ## Notions used by the statements -/

/-- The triple (aligned width, height, subsampling) a file reports to the
probe; `none` when its header cannot be decoded. -/
def probed (f : SrcFile) : Option whs_t :=
  match f.header with
  | Except.ok (width, height, subsample) =>
    some { width := align_width width, height := height, subsample := subsample }
  | Except.error _ => none

/-- A file the probe can load: `stat`, a larger read buffer if one is needed,
`fopen` and the full `fread` all go through. -/
def readable (f : SrcFile) : Bool :=
  f.stat_ok && f.malloc_ok && f.fopen_ok && decide (f.st_size ≤ f.avail)

/-- A host on which the handle, the file list, the array of sizes, the first
read buffer and the decoder context are all obtained. -/
def Host.acquires (h : Host) : Bool :=
  h.calloc_handle && h.calloc_src_files && h.malloc_src_size && h.malloc_src_buff &&
    h.tjInitDecompress

/-- Offset in the decode buffer at which plane `p` starts: the sum of
`row width * height` over the planes before `p`. -/
def plane_offset (dst : VSFrameRef) : Nat → Int
  | 0 => 0
  | p + 1 => plane_offset dst p + dst.getFrameWidth p * dst.getFrameHeight p

/-- The geometry the copy loop relies on for plane `p` of a frame: the row
width and the height are not negative, the stride is at least the row width,
and the `int` product `row width * height` does not overflow. -/
def plane_ok (dst : VSFrameRef) (p : Nat) : Prop :=
  0 ≤ dst.getFrameWidth p ∧ dst.getFrameWidth p ≤ dst.getStride p ∧
  0 ≤ dst.getFrameHeight p ∧ dst.getFrameWidth p * dst.getFrameHeight p < 2 ^ 31

/-- The states the handle and the allocator go through between the start of
the probe loop and the allocation of the decode buffer: file list and decoder
context are held, the decode buffer is not, and the read buffer is either held
or was lost in a failed reallocation. -/
def probing (jh : jpg_hnd_t) (hp : Heap) : Prop :=
  jh.src_files.isSome = true ∧ jh.tjh = true ∧ jh.decode_buff = none ∧
  ((jh.src_buff.isSome = true ∧
      (hp.live = [Res.tjh, Res.src_buff, Res.src_size, Res.src_files, Res.handle] ∨
       hp.live = [Res.src_buff, Res.tjh, Res.src_size, Res.src_files, Res.handle])) ∨
   (jh.src_buff = none ∧ hp.live = [Res.tjh, Res.src_size, Res.src_files, Res.handle]))

/-- Number of indices `i` with `sizes[i] > max(sizes[0..i-1])`, where `m` is the
maximum so far. -/
def record_count_from (m : Nat) : List Nat → Nat
  | [] => 0
  | x :: xs => if x > m then 1 + record_count_from x xs else record_count_from m xs

/-- The number `k` of the buffer reuse property: the indices `i` with
`sizes[i] > max(sizes[0..i-1])`, the maximum of no sizes being 0. -/
def record_count (sizes : List Nat) : Nat := record_count_from 0 sizes

/-- The outcome of the probe loop inside `create_source`: the text returned by
the failing `check_srcs` and the index of its file, or `none` inside when every
probe passes; `none` outside when `acquire` fails. -/
def probe_outcome (h : Host) : Option (Option (CStr × Nat)) :=
  match acquire h with
  | Except.error _ => none
  | Except.ok (jh, hp) =>
    some (probe_all h.file h.propNumElements.toNat 0 jh whs_t.zero hp).1

/-- Whether construction goes on to probe every one of the `count` files from
`i` on: each probe before the last returns `NULL`, so that the loop continues,
and the `st_size` bytes its `fread` stored lie inside the block of the read
buffer, so that the run is still the one the source describes when the next
probe starts. -/
def probes_all_files (file : Nat → SrcFile) : Nat → Nat → jpg_hnd_t → whs_t → Heap → Bool
  | 0, _, _, _, _ => true
  | count + 1, i, jh, whs, hp =>
    if count = 0 then true
    else
      match check_srcs (file i) jh i whs hp with
      | (some _, _, _, _) => false
      | (none, jh1, whs1, hp1) =>
        decide ((file i).st_size ≤ jh1.src_buff.getD 0) &&
          probes_all_files file count (i + 1) jh1 whs1 hp1

/-! ## Concrete inputs -/

/-- A readable file of `size` bytes whose header reports `w`, `h` and `s`. -/
def file_ok (size : Nat) (w h s : Int) : SrcFile :=
  { stat_ok := true, st_size := size, malloc_ok := true, fopen_ok := true, avail := size,
    header := Except.ok (w, h, s) }

/-- A host on which every allocation and the decoder start-up go through, with
file list `paths`, the given probe answers and frame rate arguments. -/
def host_ok (paths : List CStr) (file : Nat → SrcFile) (fpsnum fpsden : Option Int) : Host :=
  { calloc_handle := true,
    propNumElements := paths.length,
    calloc_src_files := true,
    propGetData := fun i => paths.get? i,
    malloc_src_size := true,
    malloc_src_buff := true,
    tjInitDecompress := true,
    tjGetErrorStr := [],
    file := file,
    getFormatPreset := fun p =>
      { id := p, numPlanes := if p = VSPresetFormat.pfGray8 then 1 else 3 },
    fpsnum := fpsnum,
    fpsden := fpsden,
    tjBufSizeYUV := fun w h _ => (3 * w * h).toNat,
    malloc_decode_buff := true }

/-- Two files `a.jpg` and `b.jpg`, both 641x480 with 4:4:4 sampling. -/
def host_641 : Host :=
  host_ok ["a.jpg".toList, "b.jpg".toList] (fun _ => file_ok 1000 641 480 TJSAMP_444) none none

/-- The two files of the mismatch scenario: 640x480 and 720x480, both 4:2:0. -/
def host_scenario3 : Host :=
  host_ok ["a_640x480_420.jpg".toList, "b_720x480_420.jpg".toList]
    (fun i => if i = 0 then file_ok 1000 640 480 TJSAMP_420 else file_ok 1000 720 480 TJSAMP_420)
    none none

/-- One readable 640x480 file `a.jpg` on a host where the `malloc` of the
decode buffer fails. -/
def host_no_decode_buff : Host :=
  { host_ok ["a.jpg".toList] (fun _ => file_ok 1000 640 480 TJSAMP_420) none none with
    malloc_decode_buff := false }

/-- One file `a.jpg` that `stat` cannot find. -/
def host_missing : Host :=
  host_ok ["a.jpg".toList]
    (fun _ => { stat_ok := false, st_size := 0, malloc_ok := true, fopen_ok := false, avail := 0,
                header := Except.error [] })
    none none

/-- One readable 640x480 file `big.jpg` of 4 GiB + 1 bytes. -/
def host_big : Host :=
  host_ok ["big.jpg".toList] (fun _ => file_ok 4294967297 640 480 TJSAMP_420) none none

/-- Four readable 8x2 files of 1000, 3000000, 2500000 and 4000000 bytes. -/
def host_grow : Host :=
  host_ok ["0.jpg".toList, "1.jpg".toList, "2.jpg".toList, "3.jpg".toList]
    (fun i => file_ok ([1000, 3000000, 2500000, 4000000].getD i 0) 8 2 TJSAMP_420) none none

/-- A 4:2:0 frame of 65536 x 32768 pixels: the luma plane has rows of 65536
bytes, 32768 rows and stride 65600, so it holds 2 GiB; the two chroma planes
have rows of 32768 bytes, 16384 rows and stride 32768. -/
def frame_2gib : VSFrameRef :=
  { getFrameWidth := fun p => if p = 0 then 65536 else 32768,
    getFrameHeight := fun p => if p = 0 then 32768 else 16384,
    getStride := fun p => if p = 0 then 65600 else 32768,
    plane := fun _ _ => 0,
    props := [] }

/-- Memory that holds 1 at every offset below the pointer and 0 from the
pointer on. -/
def below_mark : Mem := fun a => if a < 0 then 1 else 0

/-- Two 8x2 4:2:0 files read at 30000/1001 frames per second. -/
def host_ntsc : Host :=
  host_ok ["0.jpg".toList, "1.jpg".toList] (fun _ => file_ok 3 8 2 TJSAMP_420)
    (some 30000) (some 1001)

/-- A frame of the host for a three-plane format: 8x2 luma with stride 16 and
two 4x1 chroma planes with stride 4, all bytes zero, no properties. -/
def frame_8x2 : VSFrameRef :=
  { getFrameWidth := fun p => if p = 0 then 8 else 4,
    getFrameHeight := fun p => if p = 0 then 2 else 1,
    getStride := fun p => if p = 0 then 16 else 4,
    plane := fun _ _ => 0,
    props := [] }

/-- A decode buffer that holds byte `a mod 256` at offset `a`. -/
def ramp : Mem := fun a => (a % 256).toNat

/-- A file system with a three-byte file under every path, a decoder that
writes `ramp`, and a host that hands out `frame_8x2`. -/
def frame_host_8x2 : FrameHost :=
  { fopen := fun _ => some [255, 216, 255],
    tjDecompressToYUV := fun _ => some ramp,
    newVideoFrame := fun _ _ _ => frame_8x2 }

/-- The frame `jpg_get_frame` builds from `frame_8x2` and `ramp` for a clip at
30000/1001 frames per second. -/
def frame_ntsc : VSFrameRef :=
  copy_planes ramp 3 0
    { frame_8x2 with
      props := propSetInt (propSetInt frame_8x2.props "_DurationNum" 1001) "_DurationDen" 30000 }
    0

/-- The handle `create_source` builds on `host_ntsc`. -/
def clip_ntsc : jpg_hnd_t :=
  { src_files := some ["0.jpg".toList, "1.jpg".toList],
    src_size := some [3, 3],
    src_buff := some INITIAL_SRC_BUFF_SIZE,
    buff_size := INITIAL_SRC_BUFF_SIZE,
    decode_buff := some 48,
    tjh := true,
    vi := { format := some { id := VSPresetFormat.pfYUV420P8, numPlanes := 3 },
            fpsNum := 30000, fpsDen := 1001, width := 8, height := 2, numFrames := 2 } }

/-! # Theorems -/


/-! ## The format mapper -/

/-- The table loop of `tjsamp_to_vspresetformat` never leaves the table. -/
theorem tjsamp_to_vspresetformat_isSome (s : Int) :
    ∃ preset, tjsamp_to_vspresetformat s = some preset := by
  by_cases h0 : s = 0
  · subst h0; exact ⟨_, rfl⟩
  by_cases h1 : s = 1
  · subst h1; exact ⟨_, rfl⟩
  by_cases h2 : s = 2
  · subst h2; exact ⟨_, rfl⟩
  by_cases h3 : s = 3
  · subst h3; exact ⟨_, rfl⟩
  by_cases h4 : s = 4
  · subst h4; exact ⟨_, rfl⟩
  refine ⟨VSPresetFormat.pfNone, ?_⟩
  simp [tjsamp_to_vspresetformat, table_scan, table, TJSAMP_444, TJSAMP_422, TJSAMP_420,
    TJSAMP_GRAY, TJSAMP_440, Ne.symm h0, Ne.symm h1, Ne.symm h2, Ne.symm h3, Ne.symm h4]

/-- C1: for every subsampling value, inside or outside `enum TJSAMP`, the table
loop of `tjsamp_to_vspresetformat` stops inside its table and the function
returns `pfYUV444P8` for 4:4:4, `pfYUV422P8` for 4:2:2, `pfYUV420P8` for 4:2:0,
`pfYUV440P8` for 4:4:0, `pfGray8` for grayscale and `pfNone` for any other value. -/
theorem tjsamp_to_vspresetformat_total (s : Int) :
    tjsamp_to_vspresetformat s = some
      (if s = TJSAMP_444 then VSPresetFormat.pfYUV444P8
       else if s = TJSAMP_422 then VSPresetFormat.pfYUV422P8
       else if s = TJSAMP_420 then VSPresetFormat.pfYUV420P8
       else if s = TJSAMP_440 then VSPresetFormat.pfYUV440P8
       else if s = TJSAMP_GRAY then VSPresetFormat.pfGray8
       else VSPresetFormat.pfNone) := by
  by_cases h0 : s = 0
  · subst h0; rfl
  by_cases h1 : s = 1
  · subst h1; rfl
  by_cases h2 : s = 2
  · subst h2; rfl
  by_cases h3 : s = 3
  · subst h3; rfl
  by_cases h4 : s = 4
  · subst h4; rfl
  simp [tjsamp_to_vspresetformat, table_scan, table, TJSAMP_444, TJSAMP_422, TJSAMP_420,
    TJSAMP_GRAY, TJSAMP_440, h0, h1, h2, h3, h4, Ne.symm h0, Ne.symm h1, Ne.symm h2,
    Ne.symm h3, Ne.symm h4]

/-! ## Width alignment and the probe loop -/

/-- Without overflow the two shifts round up to the next multiple of 4. -/
theorem align_width_eq (w : Int) (h0 : 0 ≤ w) (h1 : w + 3 < 2 ^ 31) :
    align_width w = (w + 3) / 4 * 4 := by
  unfold align_width shl32 wrap32
  rw [Int.shiftRight_eq_div_pow]
  norm_num
  omega

/-- The recorded width is a multiple of 4 for every header width: the low two
bits are cleared by the shifts. -/
theorem align_width_mod (w : Int) : align_width w % 4 = 0 := by
  unfold align_width shl32 wrap32
  generalize ((w + 3 + 2 ^ 31) % 2 ^ 32 - 2 ^ 31) >>> (2 : Nat) = x
  norm_num
  omega

/-- A comparison that passes leaves the reported triple in `whs`, and for a
file other than the first that triple was already there. -/
theorem match_whs_none {n : Nat} {whs whs1 : whs_t} {w h s : Int}
    (hm : match_whs n whs w h s = (none, whs1)) :
    whs1 = { width := w, height := h, subsample := s } ∧ (0 < n → whs1 = whs) := by
  cases whs with
  | mk ww wh ws =>
    unfold match_whs at hm
    simp only at hm
    split_ifs at hm <;> simp_all

/-- A probe that returns `NULL` leaves in `whs` the triple its file reports,
and for a file other than the first that triple was already there. -/
theorem check_srcs_none {f : SrcFile} {jh jh1 : jpg_hnd_t} {n : Nat} {whs whs1 : whs_t}
    {hp hp1 : Heap} (h : check_srcs f jh n whs hp = (none, jh1, whs1, hp1)) :
    probed f = some whs1 ∧ (0 < n → whs1 = whs) := by
  unfold check_srcs at h
  unfold probed
  split at h
  · simp at h
  · split at h
    · simp at h
    · rename_i w0 ht sb hhdr
      rw [hhdr]
      simp only at h ⊢
      simp only [Prod.mk.injEq] at h
      obtain ⟨hr, -, hw, -⟩ := h
      have := match_whs_none (Prod.ext hr hw : match_whs n whs (align_width w0) ht sb = (none, whs1))
      exact ⟨by rw [this.1], this.2⟩

/-- Files probed after the first one must report what `whs` already holds. -/
theorem probe_all_none_tail (file : Nat → SrcFile) :
    ∀ (count i : Nat) (jh : jpg_hnd_t) (whs : whs_t) (hp : Heap) (jh1 : jpg_hnd_t)
      (whs1 : whs_t) (hp1 : Heap), 0 < i →
      probe_all file count i jh whs hp = (none, jh1, whs1, hp1) →
      whs1 = whs ∧ ∀ j, i ≤ j → j < i + count → probed (file j) = some whs := by
  intro count
  induction count with
  | zero =>
    intro i jh whs hp jh1 whs1 hp1 _ h
    simp only [probe_all, Prod.mk.injEq] at h
    exact ⟨h.2.2.1.symm, fun j h1 h2 => by omega⟩
  | succ k ih =>
    intro i jh whs hp jh1 whs1 hp1 hi h
    unfold probe_all at h
    split at h
    · simp at h
    · rename_i jh2 whs2 hp2 hcs
      obtain ⟨hp0, hw⟩ := check_srcs_none hcs
      have hw2 : whs2 = whs := hw hi
      subst hw2
      obtain ⟨e1, e2⟩ := ih (i + 1) jh2 whs2 hp2 jh1 whs1 hp1 (by omega) h
      refine ⟨e1, fun j h1 h2 => ?_⟩
      by_cases hj : j = i
      · subst hj; exact hp0
      · exact e2 j (by omega) (by omega)

/-- When every probe passes, all files report the triple left in `whs`. -/
theorem probe_all_none (file : Nat → SrcFile) (count : Nat) (jh : jpg_hnd_t) (hp : Heap)
    (jh1 : jpg_hnd_t) (whs whs1 : whs_t) (hp1 : Heap)
    (h : probe_all file (count + 1) 0 jh whs hp = (none, jh1, whs1, hp1)) :
    ∀ j, j < count + 1 → probed (file j) = some whs1 := by
  unfold probe_all at h
  split at h
  · simp at h
  · rename_i jh2 whs2 hp2 hcs
    obtain ⟨hp0, -⟩ := check_srcs_none hcs
    obtain ⟨e1, e2⟩ := probe_all_none_tail file count 1 jh2 whs2 hp2 jh1 whs1 hp1 (by omega) h
    subst e1
    intro j hj
    by_cases hj0 : j = 0
    · subst hj0; exact hp0
    · exact e2 j (by omega) (by omega)

/-! ## The stages of `create_source` -/

/-- What is known once `acquire` has gone through. -/
theorem acquire_ok {h : Host} {jh : jpg_hnd_t} {hp : Heap}
    (ha : acquire h = Except.ok (jh, hp)) :
    1 ≤ h.propNumElements ∧
    jh.src_files =
      fill_src_files h.propGetData h.propNumElements.toNat 0
        (List.replicate h.propNumElements.toNat []) ∧
    jh.src_files.isSome = true ∧
    jh.src_size = some (List.replicate h.propNumElements.toNat 0) ∧
    jh.src_buff = some INITIAL_SRC_BUFF_SIZE ∧
    jh.buff_size = INITIAL_SRC_BUFF_SIZE ∧
    jh.decode_buff = none ∧
    jh.tjh = true ∧
    hp = { live := [Res.tjh, Res.src_buff, Res.src_size, Res.src_files, Res.handle],
           src_buff_allocs := 1 } := by
  unfold acquire at ha
  simp only at ha
  by_cases c1 : h.calloc_handle = false
  · rw [if_pos c1] at ha; cases ha
  rw [if_neg c1] at ha
  by_cases c2 : h.propNumElements < 1
  · rw [if_pos c2] at ha; cases ha
  rw [if_neg c2] at ha
  by_cases c3 : h.calloc_src_files = false
  · rw [if_pos c3] at ha; cases ha
  rw [if_neg c3] at ha
  cases hfill : fill_src_files h.propGetData h.propNumElements.toNat 0
      (List.replicate h.propNumElements.toNat []) with
  | none => rw [hfill] at ha; cases ha
  | some files =>
    rw [hfill] at ha
    simp only at ha
    by_cases c4 : h.malloc_src_size = false
    · rw [if_pos c4] at ha; cases ha
    rw [if_neg c4] at ha
    by_cases c5 : h.malloc_src_buff = false
    · rw [if_pos c5] at ha; cases ha
    rw [if_neg c5] at ha
    by_cases c6 : h.tjInitDecompress = false
    · rw [if_pos c6] at ha; cases ha
    rw [if_neg c6] at ha
    simp only [Except.ok.injEq, Prod.mk.injEq] at ha
    obtain ⟨e1, e2⟩ := ha
    subst e1 e2
    simp only [jpg_hnd_t.zero, Heap.alloc]
    refine ⟨by omega, ?_⟩
    simp

/-- An error of `acquire` is a run of `RET_IF_ERR` after which nothing, or
only the array of sizes, is still allocated, and the read buffer was
allocated at most once. -/
theorem acquire_error {h : Host} {run : Run} (ha : acquire h = Except.error run) :
    ∃ jh hp text, run = RET_IF_ERR jh hp text ∧
      ((close_handler jh hp).live = [] ∨ (close_handler jh hp).live = [Res.src_size]) ∧
      (close_handler jh hp).src_buff_allocs ≤ 1 := by
  unfold acquire at ha
  simp only at ha
  by_cases c1 : h.calloc_handle = false
  · rw [if_pos c1] at ha; cases ha; exact ⟨_, _, _, rfl, by decide, by decide⟩
  rw [if_neg c1] at ha
  by_cases c2 : h.propNumElements < 1
  · rw [if_pos c2] at ha; cases ha; exact ⟨_, _, _, rfl, by decide, by decide⟩
  rw [if_neg c2] at ha
  by_cases c3 : h.calloc_src_files = false
  · rw [if_pos c3] at ha; cases ha; exact ⟨_, _, _, rfl, by decide, by decide⟩
  rw [if_neg c3] at ha
  cases hfill : fill_src_files h.propGetData h.propNumElements.toNat 0
      (List.replicate h.propNumElements.toNat []) with
  | none =>
    rw [hfill] at ha; cases ha
    exact ⟨_, _, _, rfl, by simp [close_handler, Heap.alloc, Heap.free, jpg_hnd_t.zero],
      by simp [close_handler, Heap.alloc, Heap.free, jpg_hnd_t.zero]⟩
  | some files =>
    rw [hfill] at ha
    simp only at ha
    by_cases c4 : h.malloc_src_size = false
    · rw [if_pos c4] at ha; cases ha
      exact ⟨_, _, _, rfl, by simp [close_handler, Heap.alloc, Heap.free, jpg_hnd_t.zero],
        by simp [close_handler, Heap.alloc, Heap.free, jpg_hnd_t.zero]⟩
    rw [if_neg c4] at ha
    by_cases c5 : h.malloc_src_buff = false
    · rw [if_pos c5] at ha; cases ha
      exact ⟨_, _, _, rfl, by simp [close_handler, Heap.alloc, Heap.free, jpg_hnd_t.zero],
        by simp [close_handler, Heap.alloc, Heap.free, jpg_hnd_t.zero]⟩
    rw [if_neg c5] at ha
    by_cases c6 : h.tjInitDecompress = false
    · rw [if_pos c6] at ha; cases ha
      exact ⟨_, _, _, rfl, by simp [close_handler, Heap.alloc, Heap.free, jpg_hnd_t.zero],
        by simp [close_handler, Heap.alloc, Heap.free, jpg_hnd_t.zero]⟩
    rw [if_neg c6] at ha
    cases ha

/-- The loading part of the probe either stops at `stat` with nothing changed,
or leaves the handle and the allocator as the growth step made them; when it
passes, a needed reallocation went through. -/
theorem load_src_cases (f : SrcFile) (jh : jpg_hnd_t) (n : Nat) (hp : Heap) :
    (∃ e, load_src f jh n hp = (some e, jh, hp)) ∨
    (∃ r, load_src f jh n hp = (r, (grow_src_buff f jh n hp).1, (grow_src_buff f jh n hp).2) ∧
      (r = none → jh.buff_size < f.st_size → f.malloc_ok = true)) := by
  unfold load_src
  by_cases c1 : f.stat_ok = false
  · rw [if_pos c1]; exact Or.inl ⟨_, rfl⟩
  rw [if_neg c1]
  right
  simp only
  by_cases c2 : jh.buff_size < f.st_size ∧ (grow_src_buff f jh n hp).1.src_buff = none
  · rw [if_pos c2]; exact ⟨_, rfl, fun h => by simp at h⟩
  rw [if_neg c2]
  have hm : jh.buff_size < f.st_size → f.malloc_ok = true := by
    intro hlt
    by_contra hmal
    apply c2
    refine ⟨hlt, ?_⟩
    unfold grow_src_buff
    simp [hlt, hmal]
  by_cases c3 : f.fopen_ok = false
  · rw [if_pos c3]; exact ⟨_, rfl, fun h => by simp at h⟩
  rw [if_neg c3]
  by_cases c4 : min f.avail f.st_size < f.st_size
  · rw [if_pos c4]; exact ⟨_, rfl, fun h => by simp at h⟩
  rw [if_neg c4]
  exact ⟨_, rfl, fun _ => hm⟩

/-- The probe either stops at `stat` with nothing changed, or leaves the handle
and the allocator as the growth step made them; when it passes, a needed
reallocation went through. -/
theorem check_srcs_cases (f : SrcFile) (jh : jpg_hnd_t) (n : Nat) (whs : whs_t) (hp : Heap) :
    (∃ e, check_srcs f jh n whs hp = (some e, jh, whs, hp)) ∨
    (∃ r whs1, check_srcs f jh n whs hp =
        (r, (grow_src_buff f jh n hp).1, whs1, (grow_src_buff f jh n hp).2) ∧
      (r = none → jh.buff_size < f.st_size → f.malloc_ok = true)) := by
  unfold check_srcs
  rcases load_src_cases f jh n hp with ⟨e, he⟩ | ⟨r, hr, hm⟩
  · rw [he]; exact Or.inl ⟨e, rfl⟩
  · right
    rw [hr]
    cases r with
    | some e => exact ⟨_, _, rfl, fun h => by simp at h⟩
    | none =>
      simp only
      cases f.header with
      | error e => exact ⟨_, _, rfl, fun h => by simp at h⟩
      | ok t =>
        obtain ⟨w, h, s⟩ := t
        exact ⟨_, _, rfl, fun _ => hm rfl⟩

/-- The growth step keeps the probe loop inside its states. -/
theorem grow_src_buff_probing (f : SrcFile) {jh : jpg_hnd_t} (n : Nat) {hp : Heap}
    (h : probing jh hp) :
    probing (grow_src_buff f jh n hp).1 (grow_src_buff f jh n hp).2 := by
  obtain ⟨h1, h2, h3, h4⟩ := h
  unfold grow_src_buff
  simp only
  by_cases c : jh.buff_size < f.st_size
  · rw [if_pos c]
    by_cases m : f.malloc_ok = true
    · rw [if_pos m]
      refine ⟨h1, h2, h3, Or.inl ⟨rfl, Or.inr ?_⟩⟩
      rcases h4 with ⟨-, hl | hl⟩ | ⟨-, hl⟩ <;> simp [Heap.alloc, Heap.free, hl]
    · rw [if_neg m]
      refine ⟨h1, h2, h3, Or.inr ⟨rfl, ?_⟩⟩
      rcases h4 with ⟨-, hl | hl⟩ | ⟨-, hl⟩ <;> simp [Heap.free, hl]
  · rw [if_neg c]
    exact ⟨h1, h2, h3, h4⟩

/-- A probe keeps the probe loop inside its states. -/
theorem check_srcs_probing (f : SrcFile) {jh : jpg_hnd_t} (n : Nat) (whs : whs_t) {hp : Heap}
    (h : probing jh hp) :
    probing (check_srcs f jh n whs hp).2.1 (check_srcs f jh n whs hp).2.2.2 := by
  rcases check_srcs_cases f jh n whs hp with ⟨e, he⟩ | ⟨r, whs1, hr, -⟩
  · rw [he]; exact h
  · rw [hr]; exact grow_src_buff_probing f n h

/-- The probe loop stays inside its states. -/
theorem probe_all_probing (file : Nat → SrcFile) :
    ∀ (count i : Nat) (jh : jpg_hnd_t) (whs : whs_t) (hp : Heap), probing jh hp →
      probing (probe_all file count i jh whs hp).2.1 (probe_all file count i jh whs hp).2.2.2 := by
  intro count
  induction count with
  | zero => intro i jh whs hp h; exact h
  | succ k ih =>
    intro i jh whs hp h
    have hc := check_srcs_probing (file i) i whs h
    unfold probe_all
    split
    · rename_i hcs
      rw [hcs] at hc
      exact hc
    · rename_i hcs
      rw [hcs] at hc
      exact ih _ _ _ _ hc

/-- Closing the handle in a state of the probe loop leaves only the array of sizes allocated. -/
theorem close_handler_probing {jh : jpg_hnd_t} {hp : Heap} (h : probing jh hp) :
    (close_handler (some jh) hp).live = [Res.src_size] := by
  obtain ⟨h1, h2, h3, h4⟩ := h
  unfold close_handler
  simp only [h1, h2, h3, Option.isSome_none, if_true, Bool.false_eq_true, if_false]
  rcases h4 with ⟨hs, hl | hl⟩ | ⟨hs, hl⟩
  · simp [hs, Heap.free, hl]
  · simp [hs, Heap.free, hl]
  · simp [hs, Heap.free, hl]

/-- The handle after the growth step when a needed reallocation goes through. -/
theorem grow_src_buff_handle (f : SrcFile) (jh : jpg_hnd_t) (n : Nat) (hp : Heap)
    (hm : jh.buff_size < f.st_size → f.malloc_ok = true)
    (hb : jh.src_buff = some jh.buff_size) :
    (grow_src_buff f jh n hp).1.src_buff = some (grow_src_buff f jh n hp).1.buff_size ∧
    (grow_src_buff f jh n hp).1.buff_size =
      (if jh.buff_size < f.st_size then toUInt32 f.st_size else jh.buff_size) ∧
    (grow_src_buff f jh n hp).1.src_size = jh.src_size.map fun a => a.set n f.st_size := by
  unfold grow_src_buff
  simp only
  by_cases c : jh.buff_size < f.st_size
  · rw [if_pos c, if_pos (hm c), if_pos c]
    exact ⟨rfl, rfl, rfl⟩
  · rw [if_neg c, if_neg c]
    exact ⟨hb, rfl, rfl⟩

/-- The handle after a probe that passes. -/
theorem check_srcs_none_handle {f : SrcFile} {jh jh1 : jpg_hnd_t} {n : Nat} {whs whs1 : whs_t}
    {hp hp1 : Heap} (h : check_srcs f jh n whs hp = (none, jh1, whs1, hp1))
    (hb : jh.src_buff = some jh.buff_size) :
    jh1.src_buff = some jh1.buff_size ∧
    jh1.buff_size = (if jh.buff_size < f.st_size then toUInt32 f.st_size else jh.buff_size) ∧
    jh1.src_size = jh.src_size.map fun a => a.set n f.st_size := by
  rcases check_srcs_cases f jh n whs hp with ⟨e, he⟩ | ⟨r, whs2, hr, hm⟩
  · rw [he] at h; simp at h
  · rw [hr] at h
    simp only [Prod.mk.injEq] at h
    obtain ⟨h1, h2, -, -⟩ := h
    subst h2
    exact grow_src_buff_handle f jh n hp (hm h1) hb

/-- When every probe passes, the read buffer is still the block of `buff_size` bytes. -/
theorem probe_all_none_buff (file : Nat → SrcFile) :
    ∀ (count i : Nat) (jh : jpg_hnd_t) (whs : whs_t) (hp : Heap) (jh1 : jpg_hnd_t)
      (whs1 : whs_t) (hp1 : Heap), jh.src_buff = some jh.buff_size →
      probe_all file count i jh whs hp = (none, jh1, whs1, hp1) →
      jh1.src_buff = some jh1.buff_size := by
  intro count
  induction count with
  | zero =>
    intro i jh whs hp jh1 whs1 hp1 hb h
    simp only [probe_all, Prod.mk.injEq] at h
    obtain ⟨-, h2, -, -⟩ := h
    subst h2
    exact hb
  | succ k ih =>
    intro i jh whs hp jh1 whs1 hp1 hb h
    unfold probe_all at h
    split at h
    · simp at h
    · rename_i jh2 whs2 hp2 hcs
      exact ih _ _ _ _ _ _ _ (check_srcs_none_handle hcs hb).1 h

/-- After `acquire` the handle and the allocator are in a state of the probe loop. -/
theorem acquire_probing {h : Host} {jh : jpg_hnd_t} {hp : Heap}
    (ha : acquire h = Except.ok (jh, hp)) : probing jh hp := by
  obtain ⟨-, -, h3, -, h5, -, h7, h8, h9⟩ := acquire_ok ha
  subst h9
  exact ⟨h3, h8, h7, Or.inl ⟨by rw [h5]; rfl, Or.inl rfl⟩⟩

/-- The macro with arguments that read no memory is the general macro. -/
theorem RET_IF_ERR_args_const (jh : Option jpg_hnd_t) (hp : Heap) (text : CStr) :
    RET_IF_ERR_args jh hp (fun _ => some text) = some (RET_IF_ERR jh hp text) := rfl

/-- A probe failure closes the handle before the path is read through it, so
the arguments of the `RET_IF_ERR` at line 303 cannot be read: the run reads
freed memory. -/
theorem probe_failure_undefined {jh : jpg_hnd_t} {hp : Heap} (h : probing jh hp) (cs : CStr)
    (i : Nat) : RET_IF_ERR_args (some jh) hp (probe_error_args jh cs i) = none := by
  unfold RET_IF_ERR_args probe_error_args
  simp only [close_handler_probing h]
  rw [if_neg (by decide)]

/-- What is known when `finish` attaches a clip. -/
theorem finish_clip {h : Host} {jh jh9 : jpg_hnd_t} {whs : whs_t} {hp : Heap} {run : Run}
    (hf : finish h jh whs hp = some run) (hc : run.out.clip = some jh9) :
    ∃ preset, tjsamp_to_vspresetformat whs.subsample = some preset ∧
      (h.getFormatPreset preset).id ≠ VSPresetFormat.pfNone ∧
      jh9 = { jh with
        vi := { format := some (h.getFormatPreset preset),
                fpsNum := set_args_int64 24 h.fpsnum,
                fpsDen := set_args_int64 1 h.fpsden,
                width := whs.width, height := whs.height,
                numFrames := h.propNumElements },
        decode_buff := some (h.tjBufSizeYUV whs.width whs.height whs.subsample) } ∧
      run.out.error = none ∧ run.heap = hp.alloc Res.decode_buff := by
  unfold finish at hf
  split at hf
  · simp at hf
  · rename_i preset hpre
    simp only at hf
    split_ifs at hf with c1 c2
    · simp only [Option.some.injEq] at hf
      subst hf
      simp [RET_IF_ERR] at hc
    · simp only [Option.some.injEq] at hf
      subst hf
      simp [RET_IF_ERR] at hc
    · simp only [Option.some.injEq] at hf
      subst hf
      simp only [Option.some.injEq] at hc
      exact ⟨preset, hpre, c1, hc.symm, rfl, rfl⟩

/-- A clip is attached only after `acquire`, every probe and `finish` went through. -/
theorem create_source_clip {h : Host} {run : Run} {jh9 : jpg_hnd_t}
    (hr : create_source h = some run) (hc : run.out.clip = some jh9) :
    ∃ jh hp jh1 whs hp1, acquire h = Except.ok (jh, hp) ∧
      probe_all h.file h.propNumElements.toNat 0 jh whs_t.zero hp = (none, jh1, whs, hp1) ∧
      finish h jh1 whs hp1 = some run := by
  unfold create_source at hr
  split at hr
  · simp only [Option.some.injEq] at hr
    subst hr
    rename_i r hacq
    obtain ⟨a, b, c, e, -, -⟩ := acquire_error hacq
    subst e
    simp [RET_IF_ERR] at hc
  · rename_i jh hp hacq
    have hpr := probe_all_probing h.file h.propNumElements.toNat 0 jh whs_t.zero hp
      (acquire_probing hacq)
    split at hr
    · rename_i cs i jh1 whs1 hp1 hprobe
      rw [hprobe] at hpr
      rw [probe_failure_undefined hpr] at hr
      simp at hr
    · rename_i jh1 whs hp1 hprobe
      exact ⟨jh, hp, jh1, whs, hp1, hacq, hprobe, hr⟩

/-- A decodable file reports the aligned width, the height and the subsampling of its header. -/
theorem probed_some {f : SrcFile} {t : whs_t} (h : probed f = some t) :
    ∃ w ht s, f.header = Except.ok (w, ht, s) ∧
      t = { width := align_width w, height := ht, subsample := s } := by
  unfold probed at h
  split at h
  · rename_i w ht s hh
    simp only [Option.some.injEq] at h
    exact ⟨w, ht, s, hh, h.symm⟩
  · simp at h

/-- C2: for a header width `w >= 0` with `w + 3` inside the 32-bit `int` range,
the width recorded by the probe, `((w + 3) >> 2) << 2`, equals
`((w + 3) div 4) * 4`, is a multiple of 4 and lies in `[w, w + 4)` (641 gives
644, 640 stays 640); the probe of the first file records that width and the
height unchanged, a clip constructed from such a first file has that width and
that height in its video info, and the width in the video info of every
constructed clip is a multiple of 4. -/
theorem align_width_spec (w h s : Int) (h0 : 0 ≤ w) (h1 : w + 3 < 2 ^ 31) :
    align_width w = (w + 3) / 4 * 4 ∧ align_width w % 4 = 0 ∧
    w ≤ align_width w ∧ align_width w < w + 4 ∧
    align_width 641 = 644 ∧ align_width 640 = 640 ∧
    (∀ (f : SrcFile) (jh jh1 : jpg_hnd_t) (hp hp1 : Heap) (whs1 : whs_t),
      f.header = Except.ok (w, h, s) →
      check_srcs f jh 0 whs_t.zero hp = (none, jh1, whs1, hp1) →
      whs1.width = align_width w ∧ whs1.height = h) ∧
    (∀ (host : Host) (run : Run) (jh : jpg_hnd_t),
      (host.file 0).header = Except.ok (w, h, s) →
      create_source host = some run → run.out.clip = some jh →
      jh.vi.width = align_width w ∧ jh.vi.height = h ∧ jh.vi.width % 4 = 0) ∧
    (∀ (host : Host) (run : Run) (jh : jpg_hnd_t),
      create_source host = some run → run.out.clip = some jh → jh.vi.width % 4 = 0) := by
  have e := align_width_eq w h0 h1
  refine ⟨e, align_width_mod w, by omega, by omega, by decide, by decide, ?_, ?_, ?_⟩
  · intro f jh jh1 hp hp1 whs1 hf hc
    have := (check_srcs_none hc).1
    simp only [probed, hf, Option.some.injEq] at this
    subst this
    exact ⟨rfl, rfl⟩
  · intro host run jh hf hr hc
    obtain ⟨jh0, hp0, jh1, whs, hp1, hacq, hprobe, hfin⟩ := create_source_clip hr hc
    obtain ⟨preset, -, -, hjh, -, -⟩ := finish_clip hfin hc
    have hN := (acquire_ok hacq).1
    obtain ⟨k, hk⟩ : ∃ k, host.propNumElements.toNat = k + 1 :=
      ⟨host.propNumElements.toNat - 1, by omega⟩
    rw [hk] at hprobe
    have := probe_all_none host.file k jh0 hp0 jh1 whs_t.zero whs hp1 hprobe 0 (by omega)
    simp only [probed, hf, Option.some.injEq] at this
    subst this hjh
    exact ⟨rfl, rfl, align_width_mod w⟩
  · intro host run jh hr hc
    obtain ⟨jh0, hp0, jh1, whs, hp1, hacq, hprobe, hfin⟩ := create_source_clip hr hc
    obtain ⟨preset, -, -, hjh, -, -⟩ := finish_clip hfin hc
    have hN := (acquire_ok hacq).1
    obtain ⟨k, hk⟩ : ∃ k, host.propNumElements.toNat = k + 1 :=
      ⟨host.propNumElements.toNat - 1, by omega⟩
    rw [hk] at hprobe
    have := probe_all_none host.file k jh0 hp0 jh1 whs_t.zero whs hp1 hprobe 0 (by omega)
    obtain ⟨w0, ht0, s0, -, hwhs⟩ := probed_some this
    subst hwhs hjh
    exact align_width_mod w0

/-- Witness of C2: two 641x480 files give a clip of width 644 and height 480. -/
theorem align_width_spec_witness :
    (0 : Int) ≤ 641 ∧ (641 : Int) + 3 < 2 ^ 31 ∧ align_width 641 = (641 + 3) / 4 * 4 ∧
    ∃ run jh, create_source host_641 = some run ∧ run.out.clip = some jh ∧
      (jh.vi.width = align_width 641 ∧ jh.vi.height = 480 ∧ jh.vi.width % 4 = 0) :=
  ⟨by decide, by decide, (align_width_spec 641 480 TJSAMP_444 (by decide) (by decide)).1,
    _, _, rfl, rfl,
    (align_width_spec 641 480 TJSAMP_444 (by decide) (by decide)).2.2.2.2.2.2.2.1
      host_641 _ _ rfl rfl rfl⟩

/-- C3: for `N >= 1` files with arbitrary headers, if the probes of files
`0..N-1`, started from a zeroed `whs`, all return `NULL`, then every file
reports the same (aligned width, height, subsampling) as file 0, and a clip
constructed from these files has that width and height in its video info and
the format obtained by mapping that subsampling. -/
theorem uniformity (file : Nat → SrcFile) (N : Nat) (jh jh1 : jpg_hnd_t) (hp hp1 : Heap)
    (whs1 : whs_t) (hN : 1 ≤ N)
    (hprobe : probe_all file N 0 jh whs_t.zero hp = (none, jh1, whs1, hp1)) :
    (∀ i, i < N → probed (file i) = probed (file 0)) ∧ probed (file 0) = some whs1 ∧
    (∀ (host : Host) (run : Run) (jh9 : jpg_hnd_t),
      host.file = file → host.propNumElements = N →
      create_source host = some run → run.out.clip = some jh9 →
      jh9.vi.width = whs1.width ∧ jh9.vi.height = whs1.height ∧
      ∃ preset, tjsamp_to_vspresetformat whs1.subsample = some preset ∧
        jh9.vi.format = some (host.getFormatPreset preset)) := by
  obtain ⟨k, rfl⟩ : ∃ k, N = k + 1 := ⟨N - 1, by omega⟩
  have hall := probe_all_none file k jh hp jh1 whs_t.zero whs1 hp1 hprobe
  have h0 := hall 0 (by omega)
  refine ⟨fun i hi => by rw [hall i hi, h0], h0, ?_⟩
  intro host run jh9 hfile hnum hr hc
  obtain ⟨jh0, hp0, jh2, whs, hp2, hacq, hprobe2, hfin⟩ := create_source_clip hr hc
  obtain ⟨preset, hpre, -, hjh, -, -⟩ := finish_clip hfin hc
  rw [hnum, hfile] at hprobe2
  simp only [Int.toNat_ofNat] at hprobe2
  have h0b := probe_all_none file k jh0 hp0 jh2 whs_t.zero whs hp2 hprobe2 0 (by omega)
  rw [h0] at h0b
  simp only [Option.some.injEq] at h0b
  subst h0b hjh
  exact ⟨rfl, rfl, preset, hpre, rfl⟩

/-- Witness of C3: two 641x480 4:4:4 files pass both probes, report the same
triple, and the clip built from them is 644 wide and 480 high in 4:4:4. -/
theorem uniformity_witness :
    probed (host_641.file 1) = probed (host_641.file 0) ∧
    probed (host_641.file 0) = some { width := 644, height := 480, subsample := TJSAMP_444 } ∧
    ∃ run jh, create_source host_641 = some run ∧ run.out.clip = some jh ∧
      jh.vi.width = 644 ∧ jh.vi.height = 480 ∧
      ∃ preset, tjsamp_to_vspresetformat TJSAMP_444 = some preset ∧
        jh.vi.format = some (host_641.getFormatPreset preset) :=
  have h := uniformity host_641.file 2 jpg_hnd_t.zero
    (probe_all host_641.file 2 0 jpg_hnd_t.zero whs_t.zero ⟨[], 0⟩).2.1 ⟨[], 0⟩
    (probe_all host_641.file 2 0 jpg_hnd_t.zero whs_t.zero ⟨[], 0⟩).2.2.2
    { width := 644, height := 480, subsample := TJSAMP_444 }
    (by decide) (by decide)
  ⟨h.1 1 (by decide), h.2.1, _, _, rfl, rfl, h.2.2 host_641 _ _ rfl rfl rfl rfl⟩

/-! ## The resolution mismatch -/

/-- The growth step leaves the file list of the handle alone. -/
theorem grow_src_buff_src_files (f : SrcFile) (jh : jpg_hnd_t) (n : Nat) (hp : Heap) :
    (grow_src_buff f jh n hp).1.src_files = jh.src_files := by
  unfold grow_src_buff
  simp only
  split_ifs <;> rfl

/-- A readable file gets through the loading part of the probe. -/
theorem load_src_readable {f : SrcFile} (hf : readable f = true) (jh : jpg_hnd_t) (n : Nat)
    (hp : Heap) :
    load_src f jh n hp = (none, (grow_src_buff f jh n hp).1, (grow_src_buff f jh n hp).2) := by
  simp only [readable, Bool.and_eq_true, decide_eq_true_eq] at hf
  obtain ⟨⟨⟨h1, h2⟩, h3⟩, h4⟩ := hf
  unfold load_src
  have hsb : ¬ (jh.buff_size < f.st_size ∧ (grow_src_buff f jh n hp).1.src_buff = none) := by
    rintro ⟨hlt, hnone⟩
    unfold grow_src_buff at hnone
    simp [hlt, h2] at hnone
  simp [h1, h3, hsb, Nat.min_eq_right h4]

/-- The probe of a readable file with a decodable header. -/
theorem check_srcs_readable {f : SrcFile} (hf : readable f = true) {w h s : Int}
    (hh : f.header = Except.ok (w, h, s)) (jh : jpg_hnd_t) (n : Nat) (whs : whs_t) (hp : Heap) :
    check_srcs f jh n whs hp =
      ((match_whs n whs (align_width w) h s).1, (grow_src_buff f jh n hp).1,
        (match_whs n whs (align_width w) h s).2, (grow_src_buff f jh n hp).2) := by
  unfold check_srcs
  rw [load_src_readable hf, hh]

/-- The first file always passes the comparison and fills `whs`. -/
theorem match_whs_zero (whs : whs_t) (w h s : Int) :
    match_whs 0 whs w h s = (none, { width := w, height := h, subsample := s }) := by
  cases whs with
  | mk ww wh ws =>
    unfold match_whs
    simp only
    split_ifs <;> simp_all

/-- A later file with another resolution is refused. -/
theorem match_whs_resolution (n : Nat) (whs : whs_t) (w h s : Int)
    (hd : whs.width ≠ w ∨ whs.height ≠ h) :
    match_whs (n + 1) whs w h s =
      (some "found a file which has diffrent resolution from first file".toList, whs) := by
  unfold match_whs
  rw [if_pos ⟨hd, by omega⟩]

/-- On a host where every acquisition goes through, `acquire` hands over the
handle with the file list and the first read buffer. -/
theorem acquire_of_acquires {h : Host} (hacq : h.acquires = true) (hN : 1 ≤ h.propNumElements)
    {files : List CStr}
    (hfill : fill_src_files h.propGetData h.propNumElements.toNat 0
      (List.replicate h.propNumElements.toNat []) = some files) :
    acquire h = Except.ok
      ({ jpg_hnd_t.zero with
          src_files := some files,
          src_size := some (List.replicate h.propNumElements.toNat 0),
          src_buff := some INITIAL_SRC_BUFF_SIZE,
          buff_size := INITIAL_SRC_BUFF_SIZE,
          tjh := true },
       { live := [Res.tjh, Res.src_buff, Res.src_size, Res.src_files, Res.handle],
         src_buff_allocs := 1 }) := by
  simp only [Host.acquires, Bool.and_eq_true] at hacq
  obtain ⟨⟨⟨⟨h1, h2⟩, h3⟩, h4⟩, h5⟩ := hacq
  unfold acquire
  simp only [h1, h2, h3, h4, h5, hfill, Bool.true_eq_false, if_false, not_lt.mpr hN]
  simp [Heap.alloc]

/-- On every two-file input on which every acquisition goes through, both
files are readable and decodable and the second file's (aligned width,
height) differs from the first file's, the probe loop stops at file 1 with
the text `found a file which has diffrent resolution from first file`, and
`create_source` then reads the path through the handle it has just freed. -/
theorem mismatch_reads_freed_handle (host : Host) (p0 p1 : CStr) (t0 t1 : whs_t)
    (hacq : host.acquires = true) (hnum : host.propNumElements = 2)
    (hp0 : host.propGetData 0 = some p0) (hp1 : host.propGetData 1 = some p1)
    (hne0 : p0 ≠ []) (hne1 : p1 ≠ [])
    (hr0 : readable (host.file 0) = true) (hr1 : readable (host.file 1) = true)
    (hd0 : probed (host.file 0) = some t0) (hd1 : probed (host.file 1) = some t1)
    (hdiff : t1.width ≠ t0.width ∨ t1.height ≠ t0.height) :
    probe_outcome host =
        some (some ("found a file which has diffrent resolution from first file".toList, 1)) ∧
      create_source host = none := by
  obtain ⟨w0, h0, s0, hh0, rfl⟩ := probed_some hd0
  obtain ⟨w1, h1, s1, hh1, rfl⟩ := probed_some hd1
  simp only at hdiff
  have hl0 : p0.length ≠ 0 := fun hc => hne0 (List.length_eq_zero.mp hc)
  have hl1 : p1.length ≠ 0 := fun hc => hne1 (List.length_eq_zero.mp hc)
  have hfill : fill_src_files host.propGetData host.propNumElements.toNat 0
      (List.replicate host.propNumElements.toNat []) = some [p0, p1] := by
    rw [hnum]
    simp [fill_src_files, hp0, hp1, hl0, hl1, List.replicate]
  obtain ⟨jhA, hpA, ha⟩ : ∃ jh hp, acquire host = Except.ok (jh, hp) :=
    ⟨_, _, acquire_of_acquires hacq (by omega) hfill⟩
  have hpr := probe_all_probing host.file host.propNumElements.toNat 0 jhA whs_t.zero hpA
    (acquire_probing ha)
  have hres : (some "found a file which has diffrent resolution from first file".toList,
      ({ width := align_width w0, height := h0, subsample := s0 } : whs_t)) =
      match_whs (0 + 1) { width := align_width w0, height := h0, subsample := s0 }
        (align_width w1) h1 s1 :=
    (match_whs_resolution 0 _ _ _ _ (by
      rcases hdiff with hd | hd
      · exact Or.inl (Ne.symm hd)
      · exact Or.inr (Ne.symm hd))).symm
  have hprobe : ∃ jh1 whs1 hp1,
      probe_all host.file host.propNumElements.toNat 0 jhA whs_t.zero hpA =
        (some ("found a file which has diffrent resolution from first file".toList, 1),
          jh1, whs1, hp1) := by
    rw [hnum]
    simp only [show (2 : Int).toNat = 1 + 1 from rfl, probe_all]
    rw [check_srcs_readable hr0 hh0, match_whs_zero]
    simp only [zero_add]
    rw [check_srcs_readable hr1 hh1, ← hres]
    exact ⟨_, _, _, rfl⟩
  obtain ⟨jh1, whs1, hp1, hprobe⟩ := hprobe
  rw [hprobe] at hpr
  constructor
  · unfold probe_outcome
    rw [ha]
    simp only [hprobe]
  · unfold create_source
    rw [ha]
    simp only [hprobe]
    exact probe_failure_undefined hpr _ _

/-- C4 (fails on the code): on the mismatch scenario, two readable and
decodable files of 640x480 and 720x480, the probe of the second file returns
the misspelt text `found a file which has diffrent resolution from first file`,
which does not contain `different resolution from first file`, and
`create_source` sets no error text at all: its `RET_IF_ERR` closes the handle
and only then reads the second path through the freed handle. -/
theorem resolution_mismatch_reads_freed_handle :
    host_scenario3.acquires = true ∧
    readable (host_scenario3.file 0) = true ∧ readable (host_scenario3.file 1) = true ∧
    probed (host_scenario3.file 0) = some ⟨640, 480, 2⟩ ∧
    probed (host_scenario3.file 1) = some ⟨720, 480, 2⟩ ∧
    probe_outcome host_scenario3 =
      some (some ("found a file which has diffrent resolution from first file".toList, 1)) ∧
    ¬ ("different resolution from first file".toList <:+:
        "found a file which has diffrent resolution from first file".toList) ∧
    create_source host_scenario3 = none := by
  refine ⟨by decide, by decide, by decide, by decide, by decide, by decide, by decide, ?_⟩
  decide

/-! ## The frame producer -/

/-- The plane loop leaves the property map of the frame alone. -/
theorem copy_planes_props (src : Mem) :
    ∀ (count i : Nat) (dst : VSFrameRef) (srcp : Int),
      (copy_planes src count i dst srcp).props = dst.props := by
  intro count
  induction count with
  | zero => intro i dst srcp; rfl
  | succ k ih =>
    intro i dst srcp
    unfold copy_planes
    simp only
    rw [ih]

/-- A frame returned by `jpg_get_frame` is the host's new frame with the two
duration properties set and the planes copied from what the decoder wrote. -/
theorem jpg_get_frame_some {env : FrameHost} {n activation_reason : Int} {jh : jpg_hnd_t}
    {f : VSFrameRef} (hf : jpg_get_frame env n activation_reason jh = some (some f)) :
    ∃ (content : List Nat) (decoded : Mem) (format : VSFormat),
      activation_reason = arInitial ∧
      env.tjDecompressToYUV content = some decoded ∧
      jh.vi.format = some format ∧
      f = copy_planes decoded format.numPlanes.toNat 0
        { env.newVideoFrame format jh.vi.width jh.vi.height with
          props := propSetInt
            (propSetInt (env.newVideoFrame format jh.vi.width jh.vi.height).props
              "_DurationNum" jh.vi.fpsDen)
            "_DurationDen" jh.vi.fpsNum } 0 := by
  unfold jpg_get_frame at hf
  by_cases c : activation_reason ≠ arInitial
  · rw [if_pos c] at hf; simp at hf
  rw [if_neg c] at hf
  simp only at hf
  split at hf
  · simp at hf
  · split at hf
    · simp at hf
    · split at hf
      · simp at hf
      · rename_i size hsize
        by_cases c2 : min (List.length ‹List Nat›) size < size
        · rw [if_pos c2] at hf; simp at hf
        rw [if_neg c2] at hf
        split at hf
        · simp at hf
        · split at hf
          · simp at hf
          · rename_i decoded hdec _ format hfmt
            simp only [Option.some.injEq] at hf
            exact ⟨_, decoded, format, not_not.mp c, hdec, hfmt, hf.symm⟩

/-- C7: every frame that `jpg_get_frame` returns carries `_DurationNum` equal
to the clip's `fpsDen` and `_DurationDen` equal to the clip's `fpsNum`, and a
constructed clip has the `fpsnum` and `fpsden` arguments (defaults 24 and 1)
as `fpsNum` and `fpsDen`. -/
theorem duration (env : FrameHost) (n activation_reason : Int) (jh : jpg_hnd_t)
    (f : VSFrameRef) (hf : jpg_get_frame env n activation_reason jh = some (some f)) :
    propGetInt f.props "_DurationNum" = some jh.vi.fpsDen ∧
    propGetInt f.props "_DurationDen" = some jh.vi.fpsNum ∧
    (∀ (host : Host) (run : Run), create_source host = some run → run.out.clip = some jh →
      jh.vi.fpsNum = set_args_int64 24 host.fpsnum ∧
      jh.vi.fpsDen = set_args_int64 1 host.fpsden) := by
  obtain ⟨content, decoded, format, -, -, -, rfl⟩ := jpg_get_frame_some hf
  refine ⟨?_, ?_, ?_⟩
  · rw [copy_planes_props]
    simp [propGetInt, propSetInt]
  · rw [copy_planes_props]
    simp [propGetInt, propSetInt]
  · intro host run hr hc
    obtain ⟨jh0, hp0, jh1, whs, hp1, -, -, hfin⟩ := create_source_clip hr hc
    obtain ⟨preset, -, -, hjh, -, -⟩ := finish_clip hfin hc
    subst hjh
    exact ⟨rfl, rfl⟩

/-- Witness of C7: a clip read with `fpsnum=30000` and `fpsden=1001` produces
a frame that carries `_DurationNum = 1001` and `_DurationDen = 30000`. -/
theorem duration_witness :
    ∃ run, create_source host_ntsc = some run ∧ run.out.clip = some clip_ntsc ∧
      jpg_get_frame frame_host_8x2 0 arInitial clip_ntsc = some (some frame_ntsc) ∧
      propGetInt frame_ntsc.props "_DurationNum" = some 1001 ∧
      propGetInt frame_ntsc.props "_DurationDen" = some 30000 ∧
      clip_ntsc.vi.fpsNum = set_args_int64 24 (some 30000) ∧
      clip_ntsc.vi.fpsDen = set_args_int64 1 (some 1001) :=
  ⟨_, rfl, rfl, rfl,
    (duration frame_host_8x2 0 arInitial clip_ntsc frame_ntsc rfl).1,
    (duration frame_host_8x2 0 arInitial clip_ntsc frame_ntsc rfl).2.1,
    ((duration frame_host_8x2 0 arInitial clip_ntsc frame_ntsc rfl).2.2 host_ntsc _ rfl rfl).1,
    ((duration frame_host_8x2 0 arInitial clip_ntsc frame_ntsc rfl).2.2 host_ntsc _ rfl rfl).2⟩

/-! ## The plane copy -/

/-- An `int` that is not negative keeps its value as a `size_t`. -/
theorem toSizeT_nonneg {x : Int} (h0 : 0 ≤ x) (h1 : x < 2 ^ 31) : ((toSizeT x : Nat) : Int) = x := by
  unfold toSizeT
  omega

/-- A product in the `int` range is not changed by the 32-bit multiplication. -/
theorem wrap32_id {x : Int} (h0 : 0 ≤ x) (h1 : x < 2 ^ 31) : wrap32 x = x := by
  unfold wrap32
  omega

/-- The row loop writes nothing below its current destination pointer. -/
theorem blt_rows_below (row_size dst_stride : Int) (src : Mem) (hs : 0 ≤ dst_stride) :
    ∀ (rows : Nat) (dst : Mem) (dstp srcp a : Int), a < dstp →
      blt_rows row_size dst_stride src rows dst dstp srcp a = dst a := by
  intro rows
  induction rows with
  | zero => intro dst dstp srcp a _; rfl
  | succ k ih =>
    intro dst dstp srcp a ha
    unfold blt_rows
    rw [ih _ _ _ _ (by omega)]
    unfold memcpy
    rw [if_neg (by omega)]

/-- The row loop puts column `c` of source row `r` at `r * stride + c`. -/
theorem blt_rows_row (row_size dst_stride : Int) (src : Mem) (hw0 : 0 ≤ row_size)
    (hw1 : row_size < 2 ^ 31) (hws : row_size ≤ dst_stride) :
    ∀ (rows : Nat) (dst : Mem) (dstp srcp : Int) (r : Nat) (c : Int), r < rows → 0 ≤ c →
      c < row_size →
      blt_rows row_size dst_stride src rows dst dstp srcp (dstp + r * dst_stride + c) =
        src (srcp + r * row_size + c) := by
  intro rows
  induction rows with
  | zero => intro dst dstp srcp r c hr; omega
  | succ k ih =>
    intro dst dstp srcp r c hr hc0 hc1
    unfold blt_rows
    cases r with
    | zero =>
      rw [blt_rows_below row_size dst_stride src (by omega) k _ _ _ _ (by push_cast; omega)]
      unfold memcpy
      rw [toSizeT_nonneg hw0 hw1, if_pos (by push_cast; omega)]
      congr 1
      push_cast
      ring
    | succ r1 =>
      have := ih (memcpy dst dstp src srcp (toSizeT row_size)) (dstp + dst_stride)
        (srcp + row_size) r1 c (by omega) hc0 hc1
      have e1 : dstp + ((r1 + 1 : Nat) : Int) * dst_stride + c =
          dstp + dst_stride + (r1 : Int) * dst_stride + c := by push_cast; ring
      have e2 : srcp + ((r1 + 1 : Nat) : Int) * row_size + c =
          srcp + row_size + (r1 : Int) * row_size + c := by push_cast; ring
      rw [e1, e2]
      exact this

/-- With the stride equal to the row width, the row loop is one copy of `rows * row_size` bytes. -/
theorem blt_rows_eq_memcpy (row_size : Int) (src : Mem) (hw0 : 0 ≤ row_size)
    (hw1 : row_size < 2 ^ 31) :
    ∀ (rows : Nat) (dst : Mem) (dstp srcp : Int),
      blt_rows row_size row_size src rows dst dstp srcp =
        memcpy dst dstp src srcp (rows * row_size.toNat) := by
  intro rows
  induction rows with
  | zero =>
    intro dst dstp srcp
    funext a
    simp only [blt_rows, memcpy, Nat.zero_mul, Nat.cast_zero, add_zero]
    rw [if_neg (by omega)]
  | succ k ih =>
    intro dst dstp srcp
    unfold blt_rows
    rw [ih]
    funext a
    unfold memcpy
    have hk : (((k + 1) * row_size.toNat : Nat) : Int) = (k * row_size.toNat : Nat) + row_size := by
      push_cast
      rw [Int.toNat_of_nonneg hw0]
      ring
    rw [hk, toSizeT_nonneg hw0 hw1]
    have hkn : (0 : Int) ≤ ((k * row_size.toNat : Nat) : Int) := Int.natCast_nonneg _
    generalize ((k * row_size.toNat : Nat) : Int) = m at hkn
    by_cases c1 : dstp + row_size ≤ a ∧ a < dstp + row_size + m
    · rw [if_pos c1, if_pos (by omega)]
      congr 1
      ring
    · rw [if_neg c1]
      by_cases c2 : dstp ≤ a ∧ a < dstp + row_size
      · rw [if_pos c2, if_pos (by omega)]
      · rw [if_neg c2, if_neg (by omega)]

/-- The single copy of `jpg_bit_blt` equals its row loop when the stride is the row width. -/
theorem memcpy_eq_blt_rows (dst src : Mem) (srcp w h : Int) (hw : 0 ≤ w) (hh : 0 ≤ h)
    (hwh : w * h < 2 ^ 31) :
    memcpy dst 0 src srcp (toSizeT (wrap32 (w * h))) = blt_rows w w src h.toNat dst 0 srcp := by
  have hp : 0 ≤ w * h := mul_nonneg hw hh
  by_cases h0 : h = 0
  · subst h0
    funext a
    simp only [mul_zero, Int.toNat_zero, blt_rows, memcpy]
    rw [if_neg]
    simp [toSizeT, wrap32]
  · have hw1 : w < 2 ^ 31 := by
      have h1 : 1 ≤ h := by omega
      nlinarith [mul_le_mul_of_nonneg_left h1 hw]
    rw [blt_rows_eq_memcpy w src hw hw1]
    have e : ((toSizeT (wrap32 (w * h)) : Nat) : Int) = ((h.toNat * w.toNat : Nat) : Int) := by
      rw [wrap32_id hp hwh, toSizeT_nonneg hp hwh]
      push_cast
      rw [Int.toNat_of_nonneg hw, Int.toNat_of_nonneg hh]
      ring
    have e2 : toSizeT (wrap32 (w * h)) = h.toNat * w.toNat := by exact_mod_cast e
    rw [e2]

/-- Function `jpg_bit_blt` puts column `c` of row `r` of the source plane at
offset `r * stride + c` of the destination plane. -/
theorem jpg_bit_blt_row (dst : VSFrameRef) (p : Nat) (src : Mem) (srcp : Int)
    (hok : plane_ok dst p) (r c : Int) (hr0 : 0 ≤ r) (hr1 : r < dst.getFrameHeight p)
    (hc0 : 0 ≤ c) (hc1 : c < dst.getFrameWidth p) :
    jpg_bit_blt dst p src srcp (dst.getFrameWidth p) (dst.getFrameHeight p)
        (r * dst.getStride p + c) =
      src (srcp + r * dst.getFrameWidth p + c) := by
  obtain ⟨hw, hws, hh, hwh⟩ := hok
  have hw1 : dst.getFrameWidth p < 2 ^ 31 := by
    have h1 : 1 ≤ dst.getFrameHeight p := by omega
    nlinarith [mul_le_mul_of_nonneg_left h1 hw]
  simp only [jpg_bit_blt]
  have hrows := blt_rows_row (dst.getFrameWidth p) (dst.getStride p) src hw hw1 hws
    (dst.getFrameHeight p).toNat (dst.plane p) 0 srcp r.toNat c (by omega) hc0 hc1
  rw [Int.toNat_of_nonneg hr0, zero_add] at hrows
  by_cases hs : dst.getFrameWidth p = dst.getStride p
  · rw [if_pos hs, memcpy_eq_blt_rows _ _ _ _ _ hw hh hwh]
    rw [← hs] at hrows ⊢
    exact hrows
  · rw [if_neg hs]
    exact hrows

/-- The plane loop keeps the geometry of the frame, leaves the planes before
`i` alone and fills each later plane from its place in the decode buffer. -/
theorem copy_planes_spec (src : Mem) :
    ∀ (count i : Nat) (dst : VSFrameRef) (srcp : Int),
      (∀ p, i ≤ p → p < i + count → plane_ok dst p) →
      (copy_planes src count i dst srcp).getFrameWidth = dst.getFrameWidth ∧
      (copy_planes src count i dst srcp).getFrameHeight = dst.getFrameHeight ∧
      (copy_planes src count i dst srcp).getStride = dst.getStride ∧
      (∀ p, p < i → (copy_planes src count i dst srcp).plane p = dst.plane p) ∧
      (∀ p (r c : Int), i ≤ p → p < i + count → 0 ≤ r → r < dst.getFrameHeight p → 0 ≤ c →
        c < dst.getFrameWidth p →
        (copy_planes src count i dst srcp).plane p (r * dst.getStride p + c) =
          src (srcp + (plane_offset dst p - plane_offset dst i) + r * dst.getFrameWidth p + c)) := by
  intro count
  induction count with
  | zero =>
    intro i dst srcp _
    refine ⟨rfl, rfl, rfl, fun _ _ => rfl, fun p r c h1 h2 => by omega⟩
  | succ k ih =>
    intro i dst srcp hok
    unfold copy_planes
    simp only
    obtain ⟨g1, g2, g3, g4, g5⟩ := ih (i + 1)
      { dst with plane := fun p =>
          if p = i then
            jpg_bit_blt dst i src srcp (dst.getFrameWidth i) (dst.getFrameHeight i)
          else dst.plane p }
      (srcp + wrap32 (dst.getFrameWidth i * dst.getFrameHeight i))
      (fun p h1 h2 => hok p (by omega) (by omega))
    refine ⟨g1, g2, g3, ?_, ?_⟩
    · intro p hp
      rw [g4 p (by omega)]
      simp only
      rw [if_neg (by omega)]
    · intro p r c h1 h2 hr0 hr1 hc0 hc1
      by_cases hpi : p = i
      · subst hpi
        rw [g4 p (by omega)]
        simp only [if_true]
        rw [jpg_bit_blt_row dst p src srcp (hok p (by omega) (by omega)) r c hr0 hr1 hc0 hc1]
        congr 1
        ring
      · have := g5 p r c (by omega) (by omega) hr0 hr1 hc0 hc1
        simp only at this
        rw [this]
        obtain ⟨hw, -, hh, hwh⟩ := hok i (by omega) (by omega)
        rw [wrap32_id (mul_nonneg hw hh) hwh]
        congr 1
        have e : plane_offset
            { dst with plane := fun p =>
                if p = i then
                  jpg_bit_blt dst i src srcp (dst.getFrameWidth i) (dst.getFrameHeight i)
                else dst.plane p } = plane_offset dst := by
          funext q
          induction q with
          | zero => rfl
          | succ q ihq => simp only [plane_offset, ihq]
        rw [e]
        simp only [plane_offset]
        ring

/-- C6 (amended): for a frame whose planes `p < P` have row width `w_p >= 0`, height
`h_p >= 0`, stride `s_p >= w_p` and an `int` product `w_p * h_p` that does not
overflow, after the plane loop of `jpg_get_frame` the byte at offset
`r * s_p + c` of plane `p` equals the decode-buffer byte at offset
`off_p + r * w_p + c` for all `r < h_p` and `c < w_p`, where `off_p` is the sum
of `w_i * h_i` over `i < p`; the single copy taken when `w_p = s_p` gives the
same plane contents as the row loop; and every frame `jpg_get_frame` returns
is the result of that loop on the host's new frame and the decoder's output. -/
theorem stride_fixup (src : Mem) (dst : VSFrameRef) (P : Nat)
    (hgeo : ∀ p, p < P → plane_ok dst p) :
    (∀ p (r c : Int), p < P → 0 ≤ r → r < dst.getFrameHeight p → 0 ≤ c →
      c < dst.getFrameWidth p →
      (copy_planes src P 0 dst 0).plane p (r * dst.getStride p + c) =
        src (plane_offset dst p + r * dst.getFrameWidth p + c)) ∧
    (∀ p (srcp : Int), p < P → dst.getFrameWidth p = dst.getStride p →
      memcpy (dst.plane p) 0 src srcp
          (toSizeT (wrap32 (dst.getFrameWidth p * dst.getFrameHeight p))) =
        blt_rows (dst.getFrameWidth p) (dst.getStride p) src (dst.getFrameHeight p).toNat
          (dst.plane p) 0 srcp) ∧
    (∀ (env : FrameHost) (n activation_reason : Int) (jh : jpg_hnd_t) (f : VSFrameRef),
      jpg_get_frame env n activation_reason jh = some (some f) →
      ∃ content decoded format, env.tjDecompressToYUV content = some decoded ∧
        jh.vi.format = some format ∧
        f = copy_planes decoded format.numPlanes.toNat 0
          { env.newVideoFrame format jh.vi.width jh.vi.height with
            props := propSetInt
              (propSetInt (env.newVideoFrame format jh.vi.width jh.vi.height).props
                "_DurationNum" jh.vi.fpsDen)
              "_DurationDen" jh.vi.fpsNum } 0) := by
  refine ⟨?_, ?_, ?_⟩
  · intro p r c hp hr0 hr1 hc0 hc1
    have h := (copy_planes_spec src P 0 dst 0 (fun p _ h2 => hgeo p (by omega))).2.2.2.2
      p r c (by omega) (by omega) hr0 hr1 hc0 hc1
    rw [h]
    congr 1
    simp only [plane_offset]
    ring
  · intro p srcp hp hs
    obtain ⟨hw, -, hh, hwh⟩ := hgeo p hp
    rw [← hs]
    exact memcpy_eq_blt_rows _ _ _ _ _ hw hh hwh
  · intro env n ar jh f hf
    obtain ⟨content, decoded, format, -, h1, h2, h3⟩ := jpg_get_frame_some hf
    exact ⟨content, decoded, format, h1, h2, h3⟩

/-- Witness of C6: on the 8x2 frame with luma stride 16, byte (row 1, column 5)
of the luma plane is decode-buffer byte 13 and byte (row 0, column 2) of the
first chroma plane is decode-buffer byte 18. -/
theorem stride_fixup_witness :
    (copy_planes ramp 3 0 frame_8x2 0).plane 0 (1 * 16 + 5) = ramp (0 + 1 * 8 + 5) ∧
    (copy_planes ramp 3 0 frame_8x2 0).plane 1 (0 * 4 + 2) = ramp (16 + 0 * 4 + 2) ∧
    ramp (0 + 1 * 8 + 5) = 13 ∧ ramp (16 + 0 * 4 + 2) = 18 :=
  have hgeo : ∀ p, p < 3 → plane_ok frame_8x2 p := by
    intro p hp
    unfold plane_ok frame_8x2
    interval_cases p <;> decide
  ⟨(stride_fixup ramp frame_8x2 3 hgeo).1 0 1 5
      (by decide) (by decide) (by decide) (by decide) (by decide),
   (stride_fixup ramp frame_8x2 3 hgeo).1 1 0 2
      (by decide) (by decide) (by decide) (by decide) (by decide),
   by decide, by decide⟩

/-- Counterexample to C6 as stated: a 4:2:0 frame of 65536 x 32768 pixels
whose strides are at least the row widths meets the conditions of the claim,
but for its luma plane the `int` product `row_size * height` at line 248 wraps
to `-2^31`, so the first chroma plane is copied from `2^31` bytes before the
decode buffer instead of from offset `off_1 = 2^31`. -/
theorem stride_fixup_counterexample :
    (∀ p, p < 3 → 0 ≤ frame_2gib.getFrameWidth p ∧ 0 ≤ frame_2gib.getFrameHeight p ∧
      frame_2gib.getFrameWidth p ≤ frame_2gib.getStride p) ∧
    plane_offset frame_2gib 1 = 2 ^ 31 ∧
    (copy_planes below_mark 3 0 frame_2gib 0).plane 1 (0 * frame_2gib.getStride 1 + 0) =
      below_mark (-(2 ^ 31)) ∧
    (copy_planes below_mark 3 0 frame_2gib 0).plane 1 (0 * frame_2gib.getStride 1 + 0) ≠
      below_mark (plane_offset frame_2gib 1 + 0 * frame_2gib.getFrameWidth 1 + 0) := by
  refine ⟨by decide, by decide, by decide, by decide⟩

/-! ## Runs on which the code departs from the specification -/

/-- C8 (fails on the code): when the `malloc` of the decode buffer fails,
`create_source` sets the error `jpgs: failed to allocate decode buffer` and
attaches no clip, but the array of sizes allocated by the run is still
allocated when it returns: `close_handler` never frees `src_size`.  When
instead the only source file does not exist, the run sets no error at all: it
reads the path through the handle it has just freed. -/
theorem sizes_array_leaked :
    (∃ run, create_source host_no_decode_buff = some run ∧ run.out.clip = none ∧
      run.out.error = some "jpgs: failed to allocate decode buffer".toList ∧
      run.heap.live = [Res.src_size]) ∧
    probe_outcome host_missing = some (some ("source file does not exist".toList, 0)) ∧
    create_source host_missing = none :=
  ⟨⟨_, rfl, rfl, by decide, by decide⟩, by decide, by decide⟩

/-- C9 (fails on the code): a readable file of 4 GiB + 1 bytes is probed
without error and the clip is constructed, but `buff_size` was cut to 32 bits:
the read buffer is a block of 1 byte while the recorded size, which
`jpg_get_frame` passes to `fread`, is 4294967297. -/
theorem read_buffer_too_small :
    ∃ run jh, create_source host_big = some run ∧ run.out.error = none ∧
      run.out.clip = some jh ∧ jh.src_size = some [4294967297] ∧
      jh.buff_size = 1 ∧ jh.src_buff = some 1 :=
  ⟨_, _, rfl, rfl, rfl, by decide, by decide, by decide⟩

/-! ## Supporting results: what holds on every run -/

/-- With every file below 4 GiB: when the probes of files `i .. i + count - 1`
pass, the read buffer is a block of `buff_size` bytes and every size recorded
so far is at most `buff_size`. -/
theorem probe_all_fits (file : Nat → SrcFile) (hsmall : ∀ j, (file j).st_size < 2 ^ 32) :
    ∀ (count i : Nat) (jh : jpg_hnd_t) (whs : whs_t) (hp : Heap) (jh1 : jpg_hnd_t)
      (whs1 : whs_t) (hp1 : Heap) (sizes : List Nat),
      jh.src_buff = some jh.buff_size → jh.src_size = some sizes → i + count ≤ sizes.length →
      (∀ j, j < i → sizes[j]? = some (file j).st_size ∧ (file j).st_size ≤ jh.buff_size) →
      probe_all file count i jh whs hp = (none, jh1, whs1, hp1) →
      jh1.src_buff = some jh1.buff_size ∧
      ∃ sizes1, jh1.src_size = some sizes1 ∧ sizes1.length = sizes.length ∧
        ∀ j, j < i + count →
          sizes1[j]? = some (file j).st_size ∧ (file j).st_size ≤ jh1.buff_size := by
  intro count
  induction count with
  | zero =>
    intro i jh whs hp jh1 whs1 hp1 sizes hb hs _ hprev h
    simp only [probe_all, Prod.mk.injEq] at h
    obtain ⟨-, h2, -, -⟩ := h
    subst h2
    exact ⟨hb, sizes, hs, rfl, fun j hj => hprev j (by omega)⟩
  | succ k ih =>
    intro i jh whs hp jh1 whs1 hp1 sizes hb hs hlen hprev h
    unfold probe_all at h
    split at h
    · simp at h
    · rename_i jh2 whs2 hp2 hcs
      obtain ⟨b1, b2, b3⟩ := check_srcs_none_handle hcs hb
      have hst := hsmall i
      have hbuf : jh.buff_size ≤ jh2.buff_size ∧ (file i).st_size ≤ jh2.buff_size := by
        rw [b2]
        unfold toUInt32
        split_ifs with c
        · rw [Nat.mod_eq_of_lt hst]; omega
        · omega
      rw [hs] at b3
      simp only [Option.map_some'] at b3
      obtain ⟨r1, sizes1, r2, r3, r4⟩ := ih (i + 1) jh2 whs2 hp2 jh1 whs1 hp1
        (sizes.set i (file i).st_size) b1 b3 (by rw [List.length_set]; omega)
        (fun j hj => by
          by_cases hji : j = i
          · subst hji
            refine ⟨?_, hbuf.2⟩
            rw [List.getElem?_set_self (by omega)]
          · obtain ⟨p1, p2⟩ := hprev j (by omega)
            refine ⟨?_, by omega⟩
            rw [List.getElem?_set_ne (by omega)]
            exact p1) h
      refine ⟨r1, sizes1, r2, by rw [r3, List.length_set], fun j hj => r4 j (by omega)⟩

/-- With every file below 4 GiB, a constructed clip has a read buffer of
`buff_size` bytes that is at least as large as every recorded size. -/
theorem read_buffer_fits (host : Host) (run : Run) (jh : jpg_hnd_t)
    (hsmall : ∀ j, (host.file j).st_size < 2 ^ 32)
    (hr : create_source host = some run) (hc : run.out.clip = some jh) :
    jh.src_buff = some jh.buff_size ∧
    ∃ sizes, jh.src_size = some sizes ∧
      ∀ j, j < host.propNumElements.toNat →
        sizes[j]? = some (host.file j).st_size ∧ (host.file j).st_size ≤ jh.buff_size := by
  obtain ⟨jh0, hp0, jh1, whs, hp1, hacq, hprobe, hfin⟩ := create_source_clip hr hc
  obtain ⟨preset, -, -, hjh, -, -⟩ := finish_clip hfin hc
  obtain ⟨-, -, -, a4, a5, a6, -, -, -⟩ := acquire_ok hacq
  obtain ⟨r1, sizes1, r2, -, r4⟩ := probe_all_fits host.file hsmall host.propNumElements.toNat 0
    jh0 whs_t.zero hp0 jh1 whs hp1 _ (by rw [a5, a6]) a4 (by simp) (fun j hj => by omega) hprobe
  subst hjh
  exact ⟨r1, sizes1, r2, fun j hj => r4 j (by omega)⟩

/-- The growth step allocates the read buffer at most once, and only for a
file larger than `buff_size`. -/
theorem grow_src_buff_allocs (f : SrcFile) (jh : jpg_hnd_t) (n : Nat) (hp : Heap) :
    (grow_src_buff f jh n hp).2.src_buff_allocs ≤
      hp.src_buff_allocs + (if jh.buff_size < f.st_size then 1 else 0) := by
  unfold grow_src_buff
  simp only
  by_cases c : jh.buff_size < f.st_size
  · rw [if_pos c, if_pos c]
    by_cases m : f.malloc_ok = true
    · rw [if_pos m]; simp [Heap.alloc, Heap.free]
    · rw [if_neg m]; simp [Heap.free]
  · rw [if_neg c, if_neg c]; simp

/-- Closing the handle allocates nothing. -/
theorem close_handler_allocs (jh : Option jpg_hnd_t) (hp : Heap) :
    (close_handler jh hp).src_buff_allocs = hp.src_buff_allocs := by
  unfold close_handler
  cases jh with
  | none => rfl
  | some j =>
    simp only [Heap.free]
    split_ifs <;> rfl

/-- Every run of `create_source` is of one of three kinds.  A run whose probe
loop fails reads freed memory.  Any other error run sets a text that starts
with `jpgs: `, attaches no clip and leaves nothing allocated except, possibly,
the array of sizes.  A successful run sets no error, attaches the clip and
leaves all six resources allocated. -/
theorem create_source_runs (h : Host) :
    ((∃ cs i, probe_outcome h = some (some (cs, i))) ∧ create_source h = none) ∨
    ∃ run, create_source h = some run ∧
      ((run.out.clip = none ∧ (∃ e, run.out.error = some e ∧ "jpgs: ".toList <+: e) ∧
          (run.heap.live = [] ∨ run.heap.live = [Res.src_size])) ∨
       (run.out.error = none ∧ (∃ jh, run.out.clip = some jh) ∧
          ∀ r : Res, r ∈ run.heap.live)) := by
  unfold create_source probe_outcome
  cases hacq : acquire h with
  | error run =>
    obtain ⟨a, b, c, e, hl, -⟩ := acquire_error hacq
    subst e
    exact Or.inr ⟨_, rfl, Or.inl ⟨rfl, ⟨_, rfl, List.prefix_append _ _⟩, hl⟩⟩
  | ok p =>
    obtain ⟨jh, hp⟩ := p
    simp only
    have hpr := probe_all_probing h.file h.propNumElements.toNat 0 jh whs_t.zero hp
      (acquire_probing hacq)
    split
    · rename_i cs i jh1 whs1 hp1 hprobe
      rw [hprobe] at hpr
      exact Or.inl ⟨⟨cs, i, by rw [hprobe]⟩, probe_failure_undefined hpr cs i⟩
    · rename_i jh1 whs1 hp1 hprobe
      rw [hprobe] at hpr
      simp only at hpr
      right
      unfold finish
      obtain ⟨preset, hpre⟩ := tjsamp_to_vspresetformat_isSome whs1.subsample
      rw [hpre]
      simp only
      have hpr1 : ∀ vi, probing { jh1 with vi := vi } hp1 := fun vi => hpr
      by_cases c1 : (h.getFormatPreset preset).id = VSPresetFormat.pfNone
      · rw [if_pos c1]
        exact ⟨_, rfl, Or.inl ⟨rfl, ⟨_, rfl, List.prefix_append _ _⟩,
          Or.inr (close_handler_probing (hpr1 _))⟩⟩
      rw [if_neg c1]
      by_cases c2 : h.malloc_decode_buff = false
      · rw [if_pos c2]
        exact ⟨_, rfl, Or.inl ⟨rfl, ⟨_, rfl, List.prefix_append _ _⟩,
          Or.inr (close_handler_probing (hpr1 _))⟩⟩
      rw [if_neg c2]
      refine ⟨_, rfl, Or.inr ⟨rfl, ⟨_, rfl⟩, ?_⟩⟩
      obtain ⟨-, -, -, h4⟩ := hpr
      have hsb : jh1.src_buff ≠ none := by
        obtain ⟨-, -, -, -, a5, a6, -, -, -⟩ := acquire_ok hacq
        have := probe_all_none_buff h.file _ 0 jh whs_t.zero hp jh1 whs1 hp1
          (by rw [a5, a6]) hprobe
        rw [this]
        exact Option.some_ne_none _
      rcases h4 with ⟨-, hl | hl⟩ | ⟨hs, -⟩
      · intro r; cases r <;> simp [Heap.alloc, hl]
      · intro r; cases r <;> simp [Heap.alloc, hl]
      · exact absurd hs hsb

/-! ## Buffer reuse -/

/-- While construction goes on to probe every file, and `m` is at most
`buff_size`: the probes of files `i .. i + count - 1` allocate the read buffer
at most as often as a size among them exceeds the maximum so far, started at `m`. -/
theorem probe_all_allocs (file : Nat → SrcFile) :
    ∀ (count i : Nat) (jh : jpg_hnd_t) (whs : whs_t) (hp : Heap) (m : Nat),
      jh.src_buff = some jh.buff_size → m ≤ jh.buff_size →
      probes_all_files file count i jh whs hp = true →
      (probe_all file count i jh whs hp).2.2.2.src_buff_allocs ≤
        hp.src_buff_allocs +
          record_count_from m ((List.range' i count).map fun j => (file j).st_size) := by
  intro count
  induction count with
  | zero => intro i jh whs hp m _ _ _; simp [probe_all]
  | succ k ih =>
    intro i jh whs hp m hsb hm hall
    unfold probe_all
    simp only [List.range'_succ, List.map_cons, record_count_from]
    have hga := grow_src_buff_allocs (file i) jh i hp
    rcases check_srcs_cases (file i) jh i whs hp with ⟨e, he⟩ | ⟨r, whs1, hr, hmal⟩
    · rw [he]
      simp only
      omega
    · rw [hr]
      cases r with
      | some e =>
        simp only
        split_ifs at hga ⊢ <;> omega
      | none =>
        simp only
        obtain ⟨b1, b2, -⟩ := check_srcs_none_handle hr hsb
        by_cases hk : k = 0
        · subst hk
          simp only [probe_all, List.range'_zero, List.map_nil, record_count_from]
          split_ifs at hga ⊢ <;> omega
        · unfold probes_all_files at hall
          rw [if_neg hk, hr] at hall
          simp only [Bool.and_eq_true, decide_eq_true_eq, b1, Option.getD_some] at hall
          obtain ⟨hfit, hrest⟩ := hall
          have hmod : toUInt32 (file i).st_size ≤ (file i).st_size := Nat.mod_le _ _
          by_cases c : jh.buff_size < (file i).st_size
          · rw [if_pos c] at hga b2
            rw [if_pos (by omega)]
            have := ih (i + 1) (grow_src_buff (file i) jh i hp).1 whs1
              (grow_src_buff (file i) jh i hp).2 (file i).st_size b1 (by omega) hrest
            omega
          · rw [if_neg c] at hga b2
            by_cases c2 : (file i).st_size > m
            · rw [if_pos c2]
              have := ih (i + 1) (grow_src_buff (file i) jh i hp).1 whs1
                (grow_src_buff (file i) jh i hp).2 (file i).st_size b1 (by omega) hrest
              omega
            · rw [if_neg c2]
              have := ih (i + 1) (grow_src_buff (file i) jh i hp).1 whs1
                (grow_src_buff (file i) jh i hp).2 m b1 (by omega) hrest
              omega

/-- With every file below 4 GiB the condition of the bound is the plain one:
when the probes of `count` files pass, construction goes on to probe the file
after them. -/
theorem probes_all_files_of_small (file : Nat → SrcFile)
    (hsmall : ∀ j, (file j).st_size < 2 ^ 32) :
    ∀ (count i : Nat) (jh : jpg_hnd_t) (whs : whs_t) (hp : Heap),
      jh.src_buff = some jh.buff_size →
      (probe_all file count i jh whs hp).1 = none →
      probes_all_files file (count + 1) i jh whs hp = true := by
  intro count
  induction count with
  | zero => intro i jh whs hp _ _; simp [probes_all_files]
  | succ k ih =>
    intro i jh whs hp hsb hpass
    unfold probes_all_files
    rw [if_neg (by omega)]
    unfold probe_all at hpass
    split at hpass
    · simp at hpass
    · rename_i jh1 whs1 hp1 hcs
      simp only [Bool.and_eq_true, decide_eq_true_eq]
      obtain ⟨b1, b2, -⟩ := check_srcs_none_handle hcs hsb
      have hst := hsmall i
      refine ⟨?_, ih (i + 1) jh1 whs1 hp1 b1 hpass⟩
      rw [b1, Option.getD_some, b2]
      unfold toUInt32
      split_ifs
      · rw [Nat.mod_eq_of_lt hst]
      · omega

/-- C10: for every sequence of file sizes for which construction probes all
`N` files, the read buffer is allocated once by `create_source` before the
probes and at most `1 + k` times in all, where `k` is the number of indices
`i` with `sizes[i] > max(sizes[0..i-1])`; the same bound holds for the
allocator state of every run that `create_source` returns. -/
theorem buffer_reuse (host : Host) (jh : jpg_hnd_t) (hp : Heap)
    (ha : acquire host = Except.ok (jh, hp))
    (hall : probes_all_files host.file host.propNumElements.toNat 0 jh whs_t.zero hp = true) :
    hp.src_buff_allocs = 1 ∧
    (probe_all host.file host.propNumElements.toNat 0 jh whs_t.zero hp).2.2.2.src_buff_allocs ≤
      1 + record_count
        ((List.range' 0 host.propNumElements.toNat).map fun j => (host.file j).st_size) ∧
    ∀ run, create_source host = some run →
      run.heap.src_buff_allocs ≤
        1 + record_count
          ((List.range' 0 host.propNumElements.toNat).map fun j => (host.file j).st_size) := by
  obtain ⟨-, -, -, -, a5, a6, -, -, a9⟩ := acquire_ok ha
  have hb := probe_all_allocs host.file host.propNumElements.toNat 0 jh whs_t.zero hp 0
    (by rw [a5, a6]) (by omega) hall
  have h1 : hp.src_buff_allocs = 1 := by rw [a9]
  rw [h1] at hb
  change _ ≤ 1 + record_count _ at hb
  refine ⟨h1, hb, ?_⟩
  intro run hr
  unfold create_source at hr
  rw [ha] at hr
  simp only at hr
  have hpr := probe_all_probing host.file host.propNumElements.toNat 0 jh whs_t.zero hp
    (acquire_probing ha)
  unfold record_count at hb ⊢
  split at hr
  · rename_i cs i jh1 whs1 hp1 hprobe
    rw [hprobe] at hpr
    rw [probe_failure_undefined hpr] at hr
    simp at hr
  · rename_i jh1 whs1 hp1 hprobe
    rw [hprobe] at hb
    simp only at hb
    unfold finish at hr
    split at hr
    · simp at hr
    · simp only at hr
      split_ifs at hr
      all_goals
        simp only [Option.some.injEq] at hr
        subst hr
        first
          | (simp only [RET_IF_ERR, close_handler_allocs]; omega)
          | (simp only [Heap.alloc]; simp; omega)

/-- Witness of C10: four files of 1000, 3000000, 2500000 and 4000000 bytes are
all probed; the read buffer is allocated three times and `1 + k = 4`. -/
theorem buffer_reuse_witness :
    ∃ run, create_source host_grow = some run ∧ run.heap.src_buff_allocs = 3 ∧
      run.heap.src_buff_allocs ≤
        1 + record_count
          ((List.range' 0 host_grow.propNumElements.toNat).map fun j =>
            (host_grow.file j).st_size) ∧
      record_count
          ((List.range' 0 host_grow.propNumElements.toNat).map fun j =>
            (host_grow.file j).st_size) = 3 :=
  ⟨_, rfl, by decide, (buffer_reuse host_grow _ _ rfl (by decide)).2.2 _ rfl, by decide⟩

end JpgReader
